import Mathlib

/-!
# ConvHmmaKernel: resource orchestration of the HMMA convolution kernel

A shallow embedding of `src/ppl/nn/engines/cuda/kernels/onnx/conv_hmma_kernel.cc`
(`BeforeExecute`, `UpdateWeight`, `DoExecute`) and of the state declared in
`conv_hmma_kernel.h`.

The kernel talks to collaborators whose code is not part of these two files:
the CUDA device (allocator, data converter), the base-class `Reshape`, and the
primitive library.  Every such call is recorded as an `Event` in the device's
`trace`; its outcome is read from an `Env`, a record of functions indexed by
the time of the call (the length of the trace so far), so that every sequence
of outcomes is covered by quantifying over `Env`.

Integer arithmetic is on `Int` with C's truncating division (`Int.tdiv`); the
operand types of the padding formula are declared in headers outside these two
files, and `channel_size_pad_wrapped_eq` shows that the formula has the same
value in wrapping arithmetic of any width that holds its intermediate sum.
`LOG` statements are not modelled.
-/

namespace ppl.nn.cuda

/-! ## Data model -/

/-- Status code `ppl::common::RetCode`; `RC_SUCCESS` is zero. -/
abbrev RetCode := Nat

/-- The success status. -/
def RC_SUCCESS : RetCode := 0

/-- Device memory handle `BufferDesc`; a default-constructed one has a null
address, written `0`. -/
structure BufferDesc where
  addr : Nat
deriving DecidableEq, Repr

instance : Inhabited BufferDesc := ⟨⟨0⟩⟩

/-- The parts of `TensorShape` the kernel reads or writes. -/
structure TensorShape where
  data_type : Nat
  data_format : Nat
  dims : List Int
  padding1 : List Int
deriving DecidableEq, Repr

instance : Inhabited TensorShape := ⟨⟨0, 0, [], []⟩⟩

/-- Accessor `TensorShape::GetDim(which)`. -/
def TensorShape.GetDim (s : TensorShape) (which : Nat) : Int :=
  s.dims.getD which 0

/-- Mutator `TensorShape::SetDim(which, dim)`. -/
def TensorShape.SetDim (s : TensorShape) (which : Nat) (dim : Int) : TensorShape :=
  { s with dims := s.dims.set which dim }

/-- Mutator `TensorShape::SetPadding1(which, pad)`. -/
def TensorShape.SetPadding1 (s : TensorShape) (which : Nat) (pad : Int) : TensorShape :=
  { s with padding1 := s.padding1.set which pad }

/-- A tensor `TensorImpl`: its shape and the buffer bound to it. -/
structure TensorImpl where
  shape : TensorShape
  buffer : BufferDesc
deriving DecidableEq, Repr

instance : Inhabited TensorImpl := ⟨⟨default, default⟩⟩

/-- Accessor `TensorImpl::GetBufferPtr()`. -/
def TensorImpl.GetBufferPtr (t : TensorImpl) : Nat := t.buffer.addr

/-- Mutator `TensorImpl::SetBuffer(buffer)`. -/
def TensorImpl.SetBuffer (t : TensorImpl) (b : BufferDesc) : TensorImpl :=
  { t with buffer := b }

/-- The inputs and outputs of one kernel invocation, `KernelExecContext`. -/
structure KernelExecContext where
  inputs : List TensorImpl
  outputs : List TensorImpl
deriving DecidableEq, Repr

/-- Accessor `ctx->GetInput<TensorImpl>(i)`. -/
def KernelExecContext.GetInput (ctx : KernelExecContext) (i : Nat) : TensorImpl :=
  ctx.inputs.getD i default

/-- Accessor `ctx->GetOutput<TensorImpl>(i)`. -/
def KernelExecContext.GetOutput (ctx : KernelExecContext) (i : Nat) : TensorImpl :=
  ctx.outputs.getD i default

/-- Fusion descriptor `param_->extra_param.fuse_info`. -/
structure ConvFusionInfo where
  channel_size : Int
  channel_offset : Int
  concat_edge_id : Int
deriving DecidableEq, Repr

/-- Algorithm tuning `param_->extra_param.algo_info`. -/
structure algo_param_t where
  kid : Nat
  splitk : Nat
  splitf : Nat
deriving DecidableEq, Repr

/-- The fields of `param_->extra_param` that the kernel reads. -/
structure ConvExtraParam where
  algo_info : algo_param_t
  fuse_info : ConvFusionInfo
  is_initializer_weight : Bool
  bias_term : Bool
deriving DecidableEq, Repr

/-- Static configuration `CudaConvParam`. -/
structure CudaConvParam where
  extra_param : ConvExtraParam
deriving DecidableEq, Repr

/-- The members of `class ConvHmmaKernel`. -/
structure ConvHmmaKernel where
  param_ : CudaConvParam
  weight_desc_ : BufferDesc
  whether_update_weight_ : Bool
deriving DecidableEq, Repr

/-- One call made by the kernel to a collaborator, with its arguments and,
where it has one, its outcome. -/
inductive Event where
  | Reshape (status : RetCode)
  | SetDevice (i : Nat)
  | Realloc (shape : TensorShape) (status : RetCode) (buffer : BufferDesc)
  | ReallocBytes (bytes : Int) (status : RetCode) (buffer : BufferDesc)
  | ReallocBuffer (i : Nat) (status : RetCode) (buffer : BufferDesc)
  | SetBuffer (i : Nat) (buffer : BufferDesc)
  | Convert (dst : Nat) (src : Nat) (status : RetCode)
  | ConvertFromHost (dst : Nat) (host : Nat) (status : RetCode)
  | GetRuntimeBufSize (cap : Nat) (size : Nat)
  | AllocTmpBuffer (size : Nat) (status : RetCode) (buffer : BufferDesc)
  | FreeTmpBuffer (buffer : BufferDesc)
  | Free (buffer : BufferDesc)
  | CvtFlt (dst : Nat) (src : Nat)
  | Forward (input : Nat) (weight : Nat) (output : Nat) (bias : Nat) (tmp : Nat)
deriving DecidableEq, Repr

/-- The CUDA device as the kernel sees it: the fusion map returned by
`GetEdge2Buffer()` and the log of calls made so far. -/
structure CudaDevice where
  edge2buffer : List (Int × BufferDesc)
  trace : List Event
deriving DecidableEq, Repr

/-- Append one event to the device log. -/
def CudaDevice.log (dev : CudaDevice) (e : Event) : CudaDevice :=
  { dev with trace := dev.trace ++ [e] }

/-- Lookup `edge2buffer->find(key)`; `none` stands for `end()`. -/
def find (m : List (Int × BufferDesc)) (key : Int) : Option BufferDesc :=
  m.lookup key

/-- Insertion `edge2buffer->emplace(key, value)`: a map keeps the entry it
already has for a key. -/
def emplace (m : List (Int × BufferDesc)) (key : Int) (value : BufferDesc) :
    List (Int × BufferDesc) :=
  match find m key with
  | some _ => m
  | none => m ++ [(key, value)]

/-- Number of entries the map holds for a key. -/
def entries (m : List (Int × BufferDesc)) (key : Int) : Nat :=
  m.countP (fun p => p.1 == key)

/-- Outcomes of the calls to collaborators.  The first argument of each
time-dependent function is the length of the device log at the call. -/
structure Env where
  Reshape : Nat → KernelExecContext → RetCode × KernelExecContext
  GetDataFormatChannelAlignment : Nat → Int
  Realloc : Nat → TensorShape → RetCode × BufferDesc
  ReallocBytes : Nat → Int → BufferDesc → RetCode × BufferDesc
  ReallocBuffer : Nat → TensorImpl → RetCode × BufferDesc
  CalcBytesIncludingPadding : TensorShape → Int
  Convert : Nat → RetCode
  ConvertFromHost : Nat → RetCode
  PPLCUDAConvolutionGetRuntimeBufSize : KernelExecContext → CudaConvParam → Nat → Nat
  AllocTmpBuffer : Nat → Nat → RetCode × BufferDesc

/-- What a kernel entry point leaves behind: its return status and the state
of the kernel, of the context and of the device. -/
structure Outcome where
  status : RetCode
  kernel : ConvHmmaKernel
  ctx : KernelExecContext
  dev : CudaDevice
deriving DecidableEq, Repr

/-! ## BeforeExecute -/

/-- The expression `(channel_size + align_size - 1) / align_size * align_size`. -/
def channel_size_pad (channel_size align_size : Int) : Int :=
  (channel_size + align_size - 1).tdiv align_size * align_size

/-- The same expression evaluated in unsigned arithmetic of `w` bits, every
intermediate result being reduced modulo `2 ^ w`. -/
def channel_size_pad_wrapped (w : Nat) (channel_size align_size : Int) : Int :=
  (((channel_size + align_size - 1) % 2 ^ w).tdiv align_size * align_size) % 2 ^ w

/-- The shape `concat_shape` handed to `Realloc` for a fusion group's buffer. -/
def concat_shape (env : Env) (k : ConvHmmaKernel) (tensor : TensorImpl) : TensorShape :=
  tensor.shape.SetDim 1
    (channel_size_pad k.param_.extra_param.fuse_info.channel_size
      (env.GetDataFormatChannelAlignment tensor.shape.data_format))

/-- Body of the loop of `BeforeExecute` for output `i`.  It returns the value
of `status` after the body, the tensor and the device.  A failing `Realloc`
leaves the body before `SetBuffer` and `emplace`. -/
def bindOutput (env : Env) (k : ConvHmmaKernel) (i : Nat) (status : RetCode)
    (tensor : TensorImpl) (dev : CudaDevice) : RetCode × TensorImpl × CudaDevice :=
  let dev1 := dev.log (Event.SetDevice i)
  let concat_edge_id := k.param_.extra_param.fuse_info.concat_edge_id
  if 0 ≤ k.param_.extra_param.fuse_info.channel_offset then
    match find dev1.edge2buffer concat_edge_id with
    | none =>
      let shape := concat_shape env k tensor
      let r := env.Realloc dev1.trace.length shape
      let dev2 := dev1.log (Event.Realloc shape r.1 r.2)
      if r.1 ≠ RC_SUCCESS then
        (r.1, tensor, dev2)
      else
        let dev3 := dev2.log (Event.SetBuffer i r.2)
        (r.1, tensor.SetBuffer r.2,
          { dev3 with edge2buffer := emplace dev3.edge2buffer concat_edge_id r.2 })
    | some buffer =>
      (status, tensor.SetBuffer buffer, dev1.log (Event.SetBuffer i buffer))
  else
    let r := env.ReallocBuffer dev1.trace.length tensor
    (r.1, tensor.SetBuffer r.2, dev1.log (Event.ReallocBuffer i r.1 r.2))

/-- The loop `for (i = 0; i < ctx->GetOutputCount(); ++i)` over the outputs
not yet visited; it stops at the first output whose body leaves a status
other than `RC_SUCCESS`. -/
def bindOutputs (env : Env) (k : ConvHmmaKernel) :
    Nat → RetCode → List TensorImpl → CudaDevice → RetCode × List TensorImpl × CudaDevice
  | _, _, [], dev => (RC_SUCCESS, [], dev)
  | i, status, tensor :: rest, dev =>
    let r := bindOutput env k i status tensor dev
    if r.1 ≠ RC_SUCCESS then
      (r.1, r.2.1 :: rest, r.2.2)
    else
      let r2 := bindOutputs env k (i + 1) r.1 rest r.2.2
      (r2.1, r.2.1 :: r2.2.1, r2.2.2)

/-- Entry point `ConvHmmaKernel::BeforeExecute`. -/
def BeforeExecute (env : Env) (k : ConvHmmaKernel) (ctx : KernelExecContext)
    (dev : CudaDevice) : Outcome :=
  let r := env.Reshape dev.trace.length ctx
  let dev1 := dev.log (Event.Reshape r.1)
  if r.1 ≠ RC_SUCCESS then
    ⟨r.1, k, r.2, dev1⟩
  else
    let b := bindOutputs env k 0 r.1 r.2.outputs dev1
    ⟨b.1, k, { r.2 with outputs := b.2.1 }, b.2.2⟩

/-! ## UpdateWeight -/

/-- Entry point `ConvHmmaKernel::UpdateWeight(ctx, data, on_device)`.  The
shapes handed to the data converter play no part in the control flow and are
left out of its events. -/
def UpdateWeight (env : Env) (k : ConvHmmaKernel) (ctx : KernelExecContext)
    (data : Nat) (on_device : Bool) (dev : CudaDevice) : Outcome :=
  let shape_in1 := (ctx.GetInput 1).shape
  let data_size := env.CalcBytesIncludingPadding shape_in1
  let r := env.ReallocBytes dev.trace.length data_size k.weight_desc_
  let dev1 := dev.log (Event.ReallocBytes data_size r.1 r.2)
  let k1 := { k with weight_desc_ := r.2 }
  if r.1 ≠ RC_SUCCESS then
    ⟨r.1, k1, ctx, dev1⟩
  else
    let status :=
      if on_device then env.Convert dev1.trace.length
      else env.ConvertFromHost dev1.trace.length
    let dev2 :=
      if on_device then dev1.log (Event.Convert k1.weight_desc_.addr data status)
      else dev1.log (Event.ConvertFromHost k1.weight_desc_.addr data status)
    ⟨status, { k1 with whether_update_weight_ := true }, ctx, dev2⟩

/-! ## DoExecute -/

/-- The byte ceiling `((uint64_t)8) * 1024 * 1024 * 1024` passed to the
sizing query. -/
def workspace_cap : Nat := 8 * 1024 * 1024 * 1024

/-- The shape `newshape` of the transient weight buffer. -/
def newshape (shape_in1 : TensorShape) : TensorShape :=
  let align_size : Int := 8
  shape_in1.SetPadding1 0
    ((shape_in1.GetDim 0 + align_size - 1).tdiv align_size * align_size - shape_in1.GetDim 0)

/-- Entry point `ConvHmmaKernel::DoExecute`.

`ppl::common::Destructor` is declared outside these files; it is the scope
guard of the design notes: the function it holds runs when the enclosing scope
is left, so the two guards run in reverse order of construction on every
return that follows their construction.  `ConvertToForwardConvParam` and
`ConvertToForwardFuseParam` resolve parameters without device calls and leave
no event; the parameters they produce reach the model only through the answer
of the sizing query. -/
def DoExecute (env : Env) (k : ConvHmmaKernel) (ctx : KernelExecContext)
    (dev : CudaDevice) : Outcome :=
  let shape_in1 := (ctx.GetInput 1).shape
  let size := env.PPLCUDAConvolutionGetRuntimeBufSize ctx k.param_ workspace_cap
  let dev1 := dev.log (Event.GetRuntimeBufSize workspace_cap size)
  let a := env.AllocTmpBuffer dev1.trace.length size
  let dev2 := dev1.log (Event.AllocTmpBuffer size a.1 a.2)
  if a.1 ≠ RC_SUCCESS then
    ⟨a.1, k, ctx, dev2⟩
  else
    let tmp_buffer_desc := a.2
    let tmp_buffer := tmp_buffer_desc.addr
    let weight_arg (weight_buffer : BufferDesc) : Nat :=
      if k.param_.extra_param.is_initializer_weight then (ctx.GetInput 1).GetBufferPtr
      else weight_buffer.addr
    let bias_arg : Nat :=
      if k.param_.extra_param.bias_term then (ctx.GetInput 2).GetBufferPtr else 0
    let finish (k1 : ConvHmmaKernel) (weight_buffer : BufferDesc) (d : CudaDevice) : Outcome :=
      let d1 := d.log (Event.Forward (ctx.GetInput 0).GetBufferPtr (weight_arg weight_buffer)
        (ctx.GetOutput 0).GetBufferPtr bias_arg tmp_buffer)
      let d2 := d1.log (Event.Free weight_buffer)
      let d3 := d2.log (Event.FreeTmpBuffer tmp_buffer_desc)
      ⟨RC_SUCCESS, k1, ctx, d3⟩
    if !k.param_.extra_param.is_initializer_weight || k.whether_update_weight_ then
      let shape := newshape shape_in1
      let w := env.Realloc dev2.trace.length shape
      let dev3 := dev2.log (Event.Realloc shape w.1 w.2)
      if w.1 ≠ RC_SUCCESS then
        ⟨w.1, k, ctx, dev3.log (Event.FreeTmpBuffer tmp_buffer_desc)⟩
      else
        let weight_buffer := w.2
        let src_data_ptr :=
          if k.whether_update_weight_ then weight_buffer.addr
          else (ctx.GetInput 1).GetBufferPtr
        let k1 := { k with whether_update_weight_ := false }
        let dev4 := dev3.log (Event.CvtFlt weight_buffer.addr src_data_ptr)
        finish k1 weight_buffer dev4
    else
      finish k default dev2

/-! ## Observations on the device log -/

/-- The events a call appended to the log: what `after` holds beyond `before`. -/
def newEvents (before after : CudaDevice) : List Event :=
  after.trace.drop before.trace.length

/-- Recogniser of the relayout conversion `PPLCUDAConvolutionCvtFlt`. -/
def isCvtFlt : Event → Bool
  | Event.CvtFlt _ _ => true
  | _ => false

/-- Recogniser of the forward primitive `PPLCUDAConvolutionForwardImp`. -/
def isForward : Event → Bool
  | Event.Forward _ _ _ _ _ => true
  | _ => false

/-- Recogniser of `FreeTmpBuffer`. -/
def isFreeTmpBuffer : Event → Bool
  | Event.FreeTmpBuffer _ => true
  | _ => false

/-- Recogniser of `device->Realloc(shape, &buffer)`. -/
def isRealloc : Event → Bool
  | Event.Realloc _ _ _ => true
  | _ => false

/-- Recogniser of `AllocTmpBuffer`. -/
def isAllocTmpBuffer : Event → Bool
  | Event.AllocTmpBuffer _ _ _ => true
  | _ => false

/-- Effect of one event on the temporary buffers that are live: a successful
`AllocTmpBuffer` adds its buffer, `FreeTmpBuffer` removes one occurrence of
its argument. -/
def stepLiveTmp (live : List BufferDesc) : Event → List BufferDesc
  | Event.AllocTmpBuffer _ status buffer => if status = RC_SUCCESS then buffer :: live else live
  | Event.FreeTmpBuffer buffer => live.erase buffer
  | _ => live

/-- The temporary buffers live after a sequence of events. -/
def liveTmp (live : List BufferDesc) (events : List Event) : List BufferDesc :=
  events.foldl stepLiveTmp live

/-- Recogniser of `device->Free`. -/
def isFree : Event → Bool
  | Event.Free _ => true
  | _ => false

/-- Recogniser of the steps that make the weight ready: the weight-buffer
`Realloc` and the relayout conversion. -/
def isWeightStep (e : Event) : Bool :=
  isRealloc e || isCvtFlt e

/-- Order of events in a log: every event satisfying `p` stands before every
event satisfying `q`, that is, no `p` event follows a `q` event. -/
def allBefore (p q : Event → Bool) : List Event → Bool
  | [] => true
  | e :: rest => (!q e || rest.all (fun x => !p x)) && allBefore p q rest

/-- Successive `DoExecute` calls on one kernel and one device, one call per
context of the list, with no other call in between. -/
def DoExecuteSeq (env : Env) :
    List KernelExecContext → ConvHmmaKernel → CudaDevice → ConvHmmaKernel × CudaDevice
  | [], k, dev => (k, dev)
  | ctx :: rest, k, dev =>
    DoExecuteSeq env rest (DoExecute env k ctx dev).kernel (DoExecute env k ctx dev).dev

/-! ## Concrete instances -/

/-- A device on which every call succeeds: `Realloc` returns the buffer at
address 300, the byte-sized `Realloc` the one at 100, `AllocTmpBuffer` the one
at 400; the channel alignment is 8 and the sizing query answers 1024. -/
def envOk : Env where
  Reshape := fun _ c => (RC_SUCCESS, c)
  GetDataFormatChannelAlignment := fun _ => 8
  Realloc := fun _ _ => (RC_SUCCESS, ⟨300⟩)
  ReallocBytes := fun _ _ _ => (RC_SUCCESS, ⟨100⟩)
  ReallocBuffer := fun _ _ => (RC_SUCCESS, ⟨500⟩)
  CalcBytesIncludingPadding := fun _ => 9216
  Convert := fun _ => RC_SUCCESS
  ConvertFromHost := fun _ => RC_SUCCESS
  PPLCUDAConvolutionGetRuntimeBufSize := fun _ _ _ => 1024
  AllocTmpBuffer := fun _ _ => (RC_SUCCESS, ⟨400⟩)

/-- As `envOk`, but the sizing query answers one byte more than the ceiling
it is given. -/
def envOversize : Env :=
  { envOk with PPLCUDAConvolutionGetRuntimeBufSize := fun _ _ cap => cap + 1 }

/-- As `envOk`, but the byte-sized `Realloc` of `UpdateWeight` fails with
status 7 and leaves the descriptor as it was. -/
def envUpdateFails : Env :=
  { envOk with ReallocBytes := fun _ _ b => (7, b) }

/-- As `envOk`, but every shape-sized `Realloc` fails with status 7. -/
def envReallocFails : Env :=
  { envOk with Realloc := fun _ _ => (7, ⟨0⟩) }

/-- As `envOk`, but `AllocTmpBuffer` fails with status 7. -/
def envAllocTmpFails : Env :=
  { envOk with AllocTmpBuffer := fun _ _ => (7, ⟨0⟩) }

/-- Shape of a four-dimensional tensor of data type 5 in data format 2. -/
def shape4 (n c h w : Int) : TensorShape :=
  ⟨5, 2, [n, c, h, w], [0, 0, 0, 0]⟩

/-- A convolution invocation: input `[1,16,32,32]` at address 10, weight
`[32,16,3,3]` at address 20, bias at address 30, one unbound output
`[1,32,32,32]`. -/
def ctxConv : KernelExecContext where
  inputs := [⟨shape4 1 16 32 32, ⟨10⟩⟩, ⟨shape4 32 16 3 3, ⟨20⟩⟩, ⟨shape4 1 32 1 1, ⟨30⟩⟩]
  outputs := [⟨shape4 1 32 32 32, ⟨0⟩⟩]

/-- The same invocation with two unbound outputs. -/
def ctxTwoOutputs : KernelExecContext :=
  { ctxConv with outputs := [⟨shape4 1 32 32 32, ⟨0⟩⟩, ⟨shape4 1 32 32 32, ⟨0⟩⟩] }

/-- Configuration with the given weight kind and fusion descriptor. -/
def mkParam (is_initializer_weight : Bool) (fuse : ConvFusionInfo) : CudaConvParam :=
  ⟨⟨⟨0, 1, 1⟩, fuse, is_initializer_weight, true⟩⟩

/-- A kernel whose weight is a static initializer, outside any fusion group,
with no update pending. -/
def kStatic : ConvHmmaKernel :=
  ⟨mkParam true ⟨-1, -1, -1⟩, ⟨0⟩, false⟩

/-- A kernel whose weight is produced by another kernel. -/
def kDynamic : ConvHmmaKernel :=
  ⟨mkParam false ⟨-1, -1, -1⟩, ⟨0⟩, false⟩

/-- A member of fusion group 7, declared total channel size 64, offset 0. -/
def kFusedA : ConvHmmaKernel :=
  ⟨mkParam true ⟨64, 0, 7⟩, ⟨0⟩, false⟩

/-- A member of fusion group 7, declared total channel size 64, offset 32. -/
def kFusedB : ConvHmmaKernel :=
  ⟨mkParam true ⟨64, 32, 7⟩, ⟨0⟩, false⟩

/-- A device with an empty fusion map and an empty log. -/
def devEmpty : CudaDevice := ⟨[], []⟩

/-! ## DoExecute: the four paths -/

/-- The log of `DoExecute` and its result, path by path: the workspace
allocation fails; the weight allocation fails; the conversion runs; the
conversion is skipped. -/
theorem DoExecute_paths (env : Env) (k : ConvHmmaKernel) (ctx : KernelExecContext)
    (dev : CudaDevice) :
    let t := dev.trace.length
    let size := env.PPLCUDAConvolutionGetRuntimeBufSize ctx k.param_ workspace_cap
    let a := env.AllocTmpBuffer (t + 1) size
    let shape := newshape (ctx.GetInput 1).shape
    let w := env.Realloc (t + 2) shape
    let conv := (!k.param_.extra_param.is_initializer_weight || k.whether_update_weight_)
    let weight := if k.param_.extra_param.is_initializer_weight then (ctx.GetInput 1).GetBufferPtr
      else w.2.addr
    let bias := if k.param_.extra_param.bias_term then (ctx.GetInput 2).GetBufferPtr else 0
    let e1 := Event.GetRuntimeBufSize workspace_cap size
    let e2 := Event.AllocTmpBuffer size a.1 a.2
    (a.1 ≠ RC_SUCCESS ∧ DoExecute env k ctx dev
        = ⟨a.1, k, ctx, ⟨dev.edge2buffer, dev.trace ++ [e1, e2]⟩⟩) ∨
    (a.1 = RC_SUCCESS ∧ conv = true ∧ w.1 ≠ RC_SUCCESS ∧ DoExecute env k ctx dev
        = ⟨w.1, k, ctx, ⟨dev.edge2buffer, dev.trace ++
            [e1, e2, Event.Realloc shape w.1 w.2, Event.FreeTmpBuffer a.2]⟩⟩) ∨
    (a.1 = RC_SUCCESS ∧ conv = true ∧ w.1 = RC_SUCCESS ∧ DoExecute env k ctx dev
        = ⟨RC_SUCCESS, { k with whether_update_weight_ := false }, ctx,
            ⟨dev.edge2buffer, dev.trace ++
            [e1, e2, Event.Realloc shape w.1 w.2,
             Event.CvtFlt w.2.addr
               (if k.whether_update_weight_ then w.2.addr else (ctx.GetInput 1).GetBufferPtr),
             Event.Forward (ctx.GetInput 0).GetBufferPtr weight (ctx.GetOutput 0).GetBufferPtr
               bias a.2.addr,
             Event.Free w.2, Event.FreeTmpBuffer a.2]⟩⟩) ∨
    (a.1 = RC_SUCCESS ∧ conv = false ∧ DoExecute env k ctx dev
        = ⟨RC_SUCCESS, k, ctx, ⟨dev.edge2buffer, dev.trace ++
            [e1, e2,
             Event.Forward (ctx.GetInput 0).GetBufferPtr (ctx.GetInput 1).GetBufferPtr
               (ctx.GetOutput 0).GetBufferPtr bias a.2.addr,
             Event.Free default, Event.FreeTmpBuffer a.2]⟩⟩) := by
  intro t size a shape w conv weight bias e1 e2
  by_cases ha : a.1 = RC_SUCCESS
  · by_cases hc : conv = true
    · by_cases hw : w.1 = RC_SUCCESS
      · right; right; left
        refine ⟨ha, hc, hw, ?_⟩
        simp only [DoExecute, CudaDevice.log, List.length_append, List.length_singleton,
          List.append_assoc, List.singleton_append]
        simp [t, size, a, shape, w, conv, weight, bias, e1, e2] at ha hc hw ⊢
        simp [ha, hc, hw]
      · right; left
        refine ⟨ha, hc, hw, ?_⟩
        simp only [DoExecute, CudaDevice.log, List.length_append, List.length_singleton,
          List.append_assoc, List.singleton_append]
        simp [t, size, a, shape, w, conv, weight, bias, e1, e2] at ha hc hw ⊢
        simp [ha, hc, hw]
    · right; right; right
      have hc2 : conv = false := by simpa using hc
      refine ⟨ha, hc2, ?_⟩
      simp only [DoExecute, CudaDevice.log, List.length_append, List.length_singleton,
        List.append_assoc, List.singleton_append]
      simp [t, size, a, shape, w, conv, weight, bias, e1, e2] at ha hc2 ⊢
      simp [ha, hc2]
  · left
    refine ⟨ha, ?_⟩
    simp only [DoExecute, CudaDevice.log, List.length_append, List.length_singleton,
      List.append_assoc, List.singleton_append]
    simp [t, size, a, shape, w, conv, weight, bias, e1, e2] at ha ⊢
    simp [ha]

/-- C3: whatever the device answers, a `DoExecute` call makes one
`AllocTmpBuffer` call; when it succeeds, `FreeTmpBuffer` is called exactly once
in that call, on the buffer it returned and as the last event before the
return, both when `DoExecute` returns success and when the weight-buffer
`Realloc` fails; when it fails, `FreeTmpBuffer` is not called.  So the
temporary buffers live after the call are those live before it. -/
theorem DoExecute_releases_workspace (env : Env) (k : ConvHmmaKernel)
    (ctx : KernelExecContext) (dev : CudaDevice) (live : List BufferDesc) :
    (newEvents dev (DoExecute env k ctx dev).dev).countP isAllocTmpBuffer = 1 ∧
    (∀ size st b,
      Event.AllocTmpBuffer size st b ∈ newEvents dev (DoExecute env k ctx dev).dev →
        (st = RC_SUCCESS →
          (newEvents dev (DoExecute env k ctx dev).dev).countP isFreeTmpBuffer = 1 ∧
          (newEvents dev (DoExecute env k ctx dev).dev).count (Event.FreeTmpBuffer b) = 1 ∧
          (newEvents dev (DoExecute env k ctx dev).dev).getLast? = some (Event.FreeTmpBuffer b)) ∧
        (st ≠ RC_SUCCESS →
          (newEvents dev (DoExecute env k ctx dev).dev).countP isFreeTmpBuffer = 0)) ∧
    ((DoExecute env k ctx dev).status = RC_SUCCESS →
      (newEvents dev (DoExecute env k ctx dev).dev).countP isFreeTmpBuffer = 1) ∧
    (∀ shape st b,
      Event.Realloc shape st b ∈ newEvents dev (DoExecute env k ctx dev).dev →
        st ≠ RC_SUCCESS →
          (newEvents dev (DoExecute env k ctx dev).dev).countP isFreeTmpBuffer = 1) ∧
    liveTmp live (newEvents dev (DoExecute env k ctx dev).dev) = live := by
  rcases DoExecute_paths env k ctx dev with ⟨ha, h⟩ | ⟨ha, _, hw, h⟩ | ⟨ha, _, hw, h⟩ | ⟨ha, _, h⟩
  all_goals
    simp only [newEvents, h, List.drop_left]
    generalize env.AllocTmpBuffer (dev.trace.length + 1)
      (env.PPLCUDAConvolutionGetRuntimeBufSize ctx k.param_ workspace_cap) = a at *
    generalize env.Realloc (dev.trace.length + 2) (newshape (ctx.GetInput 1).shape) = w at *
    obtain ⟨as, ab⟩ := a
    obtain ⟨ws, wb⟩ := w
    simp only at *
    simp_all [isAllocTmpBuffer, isFreeTmpBuffer, liveTmp, stepLiveTmp, List.count_cons]

/-! ## DoExecute: the log grows, the configuration stays -/

/-- The log after `DoExecute` is the log before it followed by the events of
the call. -/
theorem DoExecute_trace (env : Env) (k : ConvHmmaKernel) (ctx : KernelExecContext)
    (dev : CudaDevice) :
    (DoExecute env k ctx dev).dev.trace
      = dev.trace ++ newEvents dev (DoExecute env k ctx dev).dev := by
  rcases DoExecute_paths env k ctx dev with ⟨_, h⟩ | ⟨_, _, _, h⟩ | ⟨_, _, _, h⟩ | ⟨_, _, h⟩ <;>
    simp [newEvents, h]

/-- Events of two consecutive stretches of the log. -/
theorem newEvents_append (d0 d1 d2 : CudaDevice) (e1 e2 : List Event)
    (h1 : d1.trace = d0.trace ++ e1) (h2 : d2.trace = d1.trace ++ e2) :
    newEvents d0 d2 = e1 ++ e2 := by
  simp [newEvents, h2, h1]

/-- One `DoExecute` on a static-initializer weight: the conversion runs at
most as often as an update is pending, and a conversion consumes the pending
update. -/
theorem DoExecute_static_step (env : Env) (k : ConvHmmaKernel) (ctx : KernelExecContext)
    (dev : CudaDevice) (hs : k.param_.extra_param.is_initializer_weight = true) :
    (DoExecute env k ctx dev).kernel.param_ = k.param_ ∧
    (newEvents dev (DoExecute env k ctx dev).dev).countP isCvtFlt
        + (if (DoExecute env k ctx dev).kernel.whether_update_weight_ then 1 else 0)
      ≤ (if k.whether_update_weight_ then 1 else 0) := by
  rcases DoExecute_paths env k ctx dev with ⟨_, h⟩ | ⟨_, _, _, h⟩ | ⟨_, hc, _, h⟩ | ⟨_, _, h⟩
  · simp [newEvents, h, isCvtFlt]
  · simp [newEvents, h, isCvtFlt]
  · simp [hs] at hc
    simp [newEvents, h, isCvtFlt, hc]
  · simp [newEvents, h, isCvtFlt]

/-- Successive `DoExecute` calls on a static-initializer weight run the
conversion at most once if an update is pending at the start and never
otherwise, whatever the device answers. -/
theorem DoExecuteSeq_static (env : Env) (ctxs : List KernelExecContext) :
    ∀ (k : ConvHmmaKernel) (dev : CudaDevice),
      k.param_.extra_param.is_initializer_weight = true →
      (DoExecuteSeq env ctxs k dev).2.trace
          = dev.trace ++ newEvents dev (DoExecuteSeq env ctxs k dev).2 ∧
      (newEvents dev (DoExecuteSeq env ctxs k dev).2).countP isCvtFlt
        ≤ (if k.whether_update_weight_ then 1 else 0) := by
  induction ctxs with
  | nil => intro k dev _; simp [DoExecuteSeq, newEvents]
  | cons c rest ih =>
    intro k dev hs
    obtain ⟨hp, hstep⟩ := DoExecute_static_step env k c dev hs
    have hs1 : (DoExecute env k c dev).kernel.param_.extra_param.is_initializer_weight = true := by
      rw [hp]; exact hs
    obtain ⟨ht, hc⟩ := ih (DoExecute env k c dev).kernel (DoExecute env k c dev).dev hs1
    have happ := newEvents_append dev (DoExecute env k c dev).dev
      (DoExecuteSeq env rest (DoExecute env k c dev).kernel (DoExecute env k c dev).dev).2
      _ _ (DoExecute_trace env k c dev) ht
    simp only [DoExecuteSeq]
    refine ⟨?_, ?_⟩
    · rw [happ, ht, DoExecute_trace env k c dev, List.append_assoc]
    · rw [happ, List.countP_append]
      omega

/-- C5: any number of successive `DoExecute` calls on a kernel whose weight is
a static initializer and whose update flag is false at the start, with no
`UpdateWeight` in between, invokes the relayout conversion at most once in
total, for every outcome of the device calls. -/
theorem DoExecuteSeq_static_converts_at_most_once (env : Env)
    (ctxs : List KernelExecContext) (k : ConvHmmaKernel) (dev : CudaDevice)
    (hs : k.param_.extra_param.is_initializer_weight = true)
    (hf : k.whether_update_weight_ = false) :
    (newEvents dev (DoExecuteSeq env ctxs k dev).2).countP isCvtFlt ≤ 1 := by
  have h := (DoExecuteSeq_static env ctxs k dev hs).2
  simp only [hf, Bool.false_eq_true, if_false] at h
  omega

/-- Witness of C5: three calls on the static kernel, on a device that never
fails. -/
theorem DoExecuteSeq_static_converts_at_most_once_witness :
    (kStatic.param_.extra_param.is_initializer_weight = true ∧
      kStatic.whether_update_weight_ = false) ∧
    (newEvents devEmpty
      (DoExecuteSeq envOk [ctxConv, ctxConv, ctxConv] kStatic devEmpty).2).countP isCvtFlt ≤ 1 :=
  ⟨⟨rfl, rfl⟩,
    DoExecuteSeq_static_converts_at_most_once envOk [ctxConv, ctxConv, ctxConv] kStatic devEmpty
      rfl rfl⟩

/-! ## DoExecute: workspace sizing -/

/-- C6, as the code has it: `DoExecute` hands the ceiling `8 * 1024^3` to the
sizing query and passes the size it answers, whatever it is, unchanged to
`AllocTmpBuffer`; it never compares the size with the ceiling.  If
`AllocTmpBuffer` fails, `DoExecute` returns its status without invoking the
forward primitive; if it succeeds and the weight-buffer `Realloc` runs and
fails, `DoExecute` returns that status without invoking the forward primitive;
in every other case it invokes the forward primitive once and returns
success.  So a non-success status is returned exactly when one of the two
allocations fails, and it is the status of that allocation. -/
theorem DoExecute_workspace_size_unchecked (env : Env) (k : ConvHmmaKernel)
    (ctx : KernelExecContext) (dev : CudaDevice) :
    (∃ rest, newEvents dev (DoExecute env k ctx dev).dev
        = Event.GetRuntimeBufSize workspace_cap
            (env.PPLCUDAConvolutionGetRuntimeBufSize ctx k.param_ workspace_cap)
          :: Event.AllocTmpBuffer
              (env.PPLCUDAConvolutionGetRuntimeBufSize ctx k.param_ workspace_cap)
              (env.AllocTmpBuffer (dev.trace.length + 1)
                (env.PPLCUDAConvolutionGetRuntimeBufSize ctx k.param_ workspace_cap)).1
              (env.AllocTmpBuffer (dev.trace.length + 1)
                (env.PPLCUDAConvolutionGetRuntimeBufSize ctx k.param_ workspace_cap)).2
          :: rest) ∧
    ((env.AllocTmpBuffer (dev.trace.length + 1)
        (env.PPLCUDAConvolutionGetRuntimeBufSize ctx k.param_ workspace_cap)).1 ≠ RC_SUCCESS →
      (DoExecute env k ctx dev).status
        = (env.AllocTmpBuffer (dev.trace.length + 1)
            (env.PPLCUDAConvolutionGetRuntimeBufSize ctx k.param_ workspace_cap)).1 ∧
      (newEvents dev (DoExecute env k ctx dev).dev).countP isForward = 0) ∧
    ((env.AllocTmpBuffer (dev.trace.length + 1)
        (env.PPLCUDAConvolutionGetRuntimeBufSize ctx k.param_ workspace_cap)).1 = RC_SUCCESS →
      (!k.param_.extra_param.is_initializer_weight || k.whether_update_weight_) = true →
      (env.Realloc (dev.trace.length + 2) (newshape (ctx.GetInput 1).shape)).1 ≠ RC_SUCCESS →
      (DoExecute env k ctx dev).status
        = (env.Realloc (dev.trace.length + 2) (newshape (ctx.GetInput 1).shape)).1 ∧
      Event.Realloc (newshape (ctx.GetInput 1).shape)
          (env.Realloc (dev.trace.length + 2) (newshape (ctx.GetInput 1).shape)).1
          (env.Realloc (dev.trace.length + 2) (newshape (ctx.GetInput 1).shape)).2
        ∈ newEvents dev (DoExecute env k ctx dev).dev ∧
      (newEvents dev (DoExecute env k ctx dev).dev).countP isForward = 0) ∧
    ((env.AllocTmpBuffer (dev.trace.length + 1)
        (env.PPLCUDAConvolutionGetRuntimeBufSize ctx k.param_ workspace_cap)).1 = RC_SUCCESS →
      ((!k.param_.extra_param.is_initializer_weight || k.whether_update_weight_) = true →
        (env.Realloc (dev.trace.length + 2) (newshape (ctx.GetInput 1).shape)).1 = RC_SUCCESS) →
      (DoExecute env k ctx dev).status = RC_SUCCESS ∧
      (newEvents dev (DoExecute env k ctx dev).dev).countP isForward = 1) ∧
    ((DoExecute env k ctx dev).status = RC_SUCCESS ↔
      (newEvents dev (DoExecute env k ctx dev).dev).countP isForward = 1) ∧
    ((DoExecute env k ctx dev).status ≠ RC_SUCCESS ↔
      (newEvents dev (DoExecute env k ctx dev).dev).countP isForward = 0) ∧
    ((DoExecute env k ctx dev).status ≠ RC_SUCCESS ↔
      ((∃ size st b, Event.AllocTmpBuffer size st b
          ∈ newEvents dev (DoExecute env k ctx dev).dev ∧ st ≠ RC_SUCCESS) ∨
       (∃ shape st b, Event.Realloc shape st b
          ∈ newEvents dev (DoExecute env k ctx dev).dev ∧ st ≠ RC_SUCCESS))) ∧
    (∀ size st b, Event.AllocTmpBuffer size st b
        ∈ newEvents dev (DoExecute env k ctx dev).dev →
      st ≠ RC_SUCCESS → (DoExecute env k ctx dev).status = st) ∧
    (∀ shape st b, Event.Realloc shape st b
        ∈ newEvents dev (DoExecute env k ctx dev).dev →
      st ≠ RC_SUCCESS → (DoExecute env k ctx dev).status = st) := by
  rcases DoExecute_paths env k ctx dev with ⟨ha, h⟩ | ⟨ha, hc, hw, h⟩ | ⟨ha, hc, hw, h⟩ | ⟨ha, hc, h⟩
  all_goals
    simp only [newEvents, h, List.drop_left]
    generalize env.AllocTmpBuffer (dev.trace.length + 1)
      (env.PPLCUDAConvolutionGetRuntimeBufSize ctx k.param_ workspace_cap) = a at *
    generalize env.Realloc (dev.trace.length + 2) (newshape (ctx.GetInput 1).shape) = w at *
    generalize (!k.param_.extra_param.is_initializer_weight || k.whether_update_weight_) = cv at *
    obtain ⟨as, ab⟩ := a
    obtain ⟨ws, wb⟩ := w
    simp only at *
    subst_vars
    simp_all [isForward]
  · exact ⟨_, _, ⟨rfl, rfl⟩, ha⟩
  · exact Or.inr ⟨_, _, ⟨rfl, rfl⟩, hw⟩

/-- Witness of C6: with `AllocTmpBuffer` failing with status 7, `DoExecute`
returns 7 and does not invoke the forward primitive; on a device that never
fails it returns success after one invocation. -/
theorem DoExecute_workspace_size_unchecked_witness :
    ((DoExecute envAllocTmpFails kStatic ctxConv devEmpty).status = 7 ∧
      (newEvents devEmpty (DoExecute envAllocTmpFails kStatic ctxConv devEmpty).dev).countP
        isForward = 0) ∧
    ((DoExecute envReallocFails kDynamic ctxConv devEmpty).status = 7 ∧
      Event.Realloc (newshape (shape4 32 16 3 3)) 7 ⟨0⟩
        ∈ newEvents devEmpty (DoExecute envReallocFails kDynamic ctxConv devEmpty).dev ∧
      (newEvents devEmpty (DoExecute envReallocFails kDynamic ctxConv devEmpty).dev).countP
        isForward = 0) ∧
    ((DoExecute envOk kDynamic ctxConv devEmpty).status = RC_SUCCESS ∧
      (newEvents devEmpty (DoExecute envOk kDynamic ctxConv devEmpty).dev).countP
        isForward = 1) :=
  ⟨(DoExecute_workspace_size_unchecked envAllocTmpFails kStatic ctxConv devEmpty).2.1
      (by decide),
   (DoExecute_workspace_size_unchecked envReallocFails kDynamic ctxConv devEmpty).2.2.1
      (by decide) (by decide) (by decide),
   (DoExecute_workspace_size_unchecked envOk kDynamic ctxConv devEmpty).2.2.2.1
      (by decide) (by decide)⟩

/-- Counterexample to C6 as stated: the sizing query answers one byte more
than the ceiling, `AllocTmpBuffer` succeeds, and `DoExecute` returns success
after invoking the forward primitive. -/
theorem DoExecute_oversize_workspace_succeeds :
    ¬ (workspace_cap < envOversize.PPLCUDAConvolutionGetRuntimeBufSize ctxConv kStatic.param_
          workspace_cap →
        (DoExecute envOversize kStatic ctxConv devEmpty).status ≠ RC_SUCCESS ∧
        (newEvents devEmpty (DoExecute envOversize kStatic ctxConv devEmpty).dev).countP
          isForward = 0) := by
  decide

/-! ## DoExecute: order of the device events -/

/-- C9, as the code has it: the events of a `DoExecute` call are the sizing
query and `AllocTmpBuffer` first, then, when they run, the weight-buffer
`Realloc` and the relayout conversion, then the forward primitive, then the
release of the weight buffer, then `FreeTmpBuffer`.  The log has one of four
shapes; the workspace is acquired before every weight step; the forward
primitive stands after the acquisition and after the weight steps and before
both releases. -/
theorem DoExecute_event_order (env : Env) (k : ConvHmmaKernel)
    (ctx : KernelExecContext) (dev : CudaDevice) :
    ((∃ size st b, st ≠ RC_SUCCESS ∧ newEvents dev (DoExecute env k ctx dev).dev
        = [Event.GetRuntimeBufSize workspace_cap size, Event.AllocTmpBuffer size st b]) ∨
     (∃ size b shape st wb, st ≠ RC_SUCCESS ∧ newEvents dev (DoExecute env k ctx dev).dev
        = [Event.GetRuntimeBufSize workspace_cap size, Event.AllocTmpBuffer size RC_SUCCESS b,
           Event.Realloc shape st wb, Event.FreeTmpBuffer b]) ∨
     (∃ size b shape wb src i w o bias, newEvents dev (DoExecute env k ctx dev).dev
        = [Event.GetRuntimeBufSize workspace_cap size, Event.AllocTmpBuffer size RC_SUCCESS b,
           Event.Realloc shape RC_SUCCESS wb, Event.CvtFlt wb.addr src,
           Event.Forward i w o bias b.addr, Event.Free wb, Event.FreeTmpBuffer b]) ∨
     (∃ size b i w o bias, newEvents dev (DoExecute env k ctx dev).dev
        = [Event.GetRuntimeBufSize workspace_cap size, Event.AllocTmpBuffer size RC_SUCCESS b,
           Event.Forward i w o bias b.addr, Event.Free default, Event.FreeTmpBuffer b])) ∧
    allBefore isAllocTmpBuffer isWeightStep (newEvents dev (DoExecute env k ctx dev).dev) = true ∧
    allBefore isAllocTmpBuffer isForward (newEvents dev (DoExecute env k ctx dev).dev) = true ∧
    allBefore isWeightStep isForward (newEvents dev (DoExecute env k ctx dev).dev) = true ∧
    allBefore isForward isFree (newEvents dev (DoExecute env k ctx dev).dev) = true ∧
    allBefore isForward isFreeTmpBuffer (newEvents dev (DoExecute env k ctx dev).dev) = true := by
  rcases DoExecute_paths env k ctx dev with ⟨ha, h⟩ | ⟨ha, _, hw, h⟩ | ⟨ha, _, hw, h⟩ | ⟨ha, _, h⟩
  all_goals
    simp only [newEvents, h, List.drop_left]
    generalize env.AllocTmpBuffer (dev.trace.length + 1)
      (env.PPLCUDAConvolutionGetRuntimeBufSize ctx k.param_ workspace_cap) = a at *
    generalize env.Realloc (dev.trace.length + 2) (newshape (ctx.GetInput 1).shape) = w at *
    obtain ⟨as, ab⟩ := a
    obtain ⟨ws, wb⟩ := w
    simp only at *
    refine ⟨?_, by
      simp [allBefore, isAllocTmpBuffer, isWeightStep, isRealloc, isCvtFlt, isForward, isFree,
        isFreeTmpBuffer]⟩
  · exact Or.inl ⟨_, _, _, ha, rfl⟩
  · subst ha
    exact Or.inr (Or.inl ⟨_, _, _, _, _, hw, rfl⟩)
  · subst ha
    subst hw
    exact Or.inr (Or.inr (Or.inl ⟨_, _, _, _, _, _, _, _, _, rfl⟩))
  · subst ha
    exact Or.inr (Or.inr (Or.inr ⟨_, _, _, _, _, _, rfl⟩))

/-- Counterexample to C9 as stated: for a dynamic weight on a device that
never fails, the weight-buffer allocation and the relayout conversion come
after `AllocTmpBuffer`, not before it. -/
theorem DoExecute_converts_after_workspace :
    newEvents devEmpty (DoExecute envOk kDynamic ctxConv devEmpty).dev
      = [Event.GetRuntimeBufSize workspace_cap 1024, Event.AllocTmpBuffer 1024 RC_SUCCESS ⟨400⟩,
         Event.Realloc (newshape (shape4 32 16 3 3)) RC_SUCCESS ⟨300⟩, Event.CvtFlt 300 20,
         Event.Forward 10 300 0 30 400, Event.Free ⟨300⟩, Event.FreeTmpBuffer ⟨400⟩] ∧
    allBefore isWeightStep isAllocTmpBuffer
      (newEvents devEmpty (DoExecute envOk kDynamic ctxConv devEmpty).dev) = false ∧
    allBefore isCvtFlt isAllocTmpBuffer
      (newEvents devEmpty (DoExecute envOk kDynamic ctxConv devEmpty).dev) = false := by
  decide

/-! ## UpdateWeight and the weight handed to the primitives -/

/-- The two paths of `UpdateWeight`: its `Realloc` fails and the call returns
at once, leaving the update flag as it was; or it succeeds, the converter runs
and the update flag is set whatever the converter reports.  The configuration
and the context are never touched. -/
theorem UpdateWeight_paths (env : Env) (k : ConvHmmaKernel) (ctx : KernelExecContext)
    (data : Nat) (on_device : Bool) (dev : CudaDevice) :
    (UpdateWeight env k ctx data on_device dev).kernel.param_ = k.param_ ∧
    (UpdateWeight env k ctx data on_device dev).ctx = ctx ∧
    ((∃ bytes st b, st ≠ RC_SUCCESS ∧
        newEvents dev (UpdateWeight env k ctx data on_device dev).dev
          = [Event.ReallocBytes bytes st b] ∧
        (UpdateWeight env k ctx data on_device dev).status = st ∧
        (UpdateWeight env k ctx data on_device dev).kernel.whether_update_weight_
          = k.whether_update_weight_) ∨
     (∃ bytes b e,
        newEvents dev (UpdateWeight env k ctx data on_device dev).dev
          = [Event.ReallocBytes bytes RC_SUCCESS b, e] ∧
        (e = Event.Convert b.addr data (UpdateWeight env k ctx data on_device dev).status ∨
         e = Event.ConvertFromHost b.addr data
              (UpdateWeight env k ctx data on_device dev).status) ∧
        (UpdateWeight env k ctx data on_device dev).kernel.weight_desc_ = b ∧
        (UpdateWeight env k ctx data on_device dev).kernel.whether_update_weight_ = true)) := by
  simp only [UpdateWeight, CudaDevice.log, newEvents]
  generalize env.ReallocBytes dev.trace.length
    (env.CalcBytesIncludingPadding (ctx.GetInput 1).shape) k.weight_desc_ = r
  obtain ⟨rs, rb⟩ := r
  by_cases hr : rs = RC_SUCCESS
  · subst hr
    cases on_device
    · simp
      exact ⟨_, _, _, ⟨⟨rfl, rfl⟩, rfl⟩, Or.inr rfl, rfl⟩
    · simp
      exact ⟨_, _, _, ⟨⟨rfl, rfl⟩, rfl⟩, Or.inl rfl, rfl⟩
  · simp [hr]

/-- C10: in every `DoExecute` call that reaches the forward primitive, the
weight address handed to it is input tensor 1's buffer when the weight is a
static initializer, and otherwise the address of the buffer that this call
obtained from `Realloc` and that the relayout conversion wrote, for either
value of the update flag.  For a static initializer with an update pending
the conversion runs, into the buffer obtained from `Realloc`, while the
primitive still reads input tensor 1's buffer (a different buffer whenever
`Realloc` returned an address other than input tensor 1's); and the weight
handed to the primitive after an `UpdateWeight` is the one handed to it
without. -/
theorem DoExecute_weight_argument (env : Env) (k : ConvHmmaKernel)
    (ctx : KernelExecContext) (dev : CudaDevice) (i w o bias tmp : Nat)
    (h : Event.Forward i w o bias tmp ∈ newEvents dev (DoExecute env k ctx dev).dev) :
    (k.param_.extra_param.is_initializer_weight = true → w = (ctx.GetInput 1).GetBufferPtr) ∧
    (k.param_.extra_param.is_initializer_weight = false →
      ∃ shape src,
        Event.Realloc shape RC_SUCCESS ⟨w⟩ ∈ newEvents dev (DoExecute env k ctx dev).dev ∧
        Event.CvtFlt w src ∈ newEvents dev (DoExecute env k ctx dev).dev) ∧
    (k.param_.extra_param.is_initializer_weight = true → k.whether_update_weight_ = true →
      ∃ shape wb src,
        Event.Realloc shape RC_SUCCESS wb ∈ newEvents dev (DoExecute env k ctx dev).dev ∧
        Event.CvtFlt wb.addr src ∈ newEvents dev (DoExecute env k ctx dev).dev ∧
        (wb.addr ≠ (ctx.GetInput 1).GetBufferPtr → w ≠ wb.addr)) ∧
    (k.param_.extra_param.is_initializer_weight = true →
      ∀ (env2 : Env) (data : Nat) (on_device : Bool) (dev2 : CudaDevice) (i2 w2 o2 bias2 tmp2 : Nat),
        Event.Forward i2 w2 o2 bias2 tmp2 ∈
          newEvents (UpdateWeight env2 k ctx data on_device dev2).dev
            (DoExecute env2 (UpdateWeight env2 k ctx data on_device dev2).kernel
              (UpdateWeight env2 k ctx data on_device dev2).ctx
              (UpdateWeight env2 k ctx data on_device dev2).dev).dev →
        w2 = w) := by
  have key : ∀ (env : Env) (k : ConvHmmaKernel) (dev : CudaDevice) (i w o bias tmp : Nat),
      Event.Forward i w o bias tmp ∈ newEvents dev (DoExecute env k ctx dev).dev →
      k.param_.extra_param.is_initializer_weight = true → w = (ctx.GetInput 1).GetBufferPtr := by
    intro env k dev i w o bias tmp h hs
    rcases DoExecute_paths env k ctx dev with ⟨_, e⟩ | ⟨_, _, _, e⟩ | ⟨_, _, _, e⟩ | ⟨_, _, e⟩
    all_goals
      simp only [newEvents, e, List.drop_left] at h
      simp [hs] at h
    · exact h.2.1
    · exact h.2.1
  refine ⟨key env k dev i w o bias tmp h, ?_, ?_, ?_⟩
  · intro hd
    rcases DoExecute_paths env k ctx dev with ⟨_, e⟩ | ⟨_, _, _, e⟩ | ⟨ha, _, hw, e⟩ | ⟨_, hc, e⟩
    · simp [newEvents, e] at h
    · simp [newEvents, e] at h
    · simp only [newEvents, e, List.drop_left] at h ⊢
      simp [hd] at h
      refine ⟨newshape (ctx.GetInput 1).shape,
        (if k.whether_update_weight_ then
          (env.Realloc (dev.trace.length + 2) (newshape (ctx.GetInput 1).shape)).2.addr
         else (ctx.GetInput 1).GetBufferPtr), ?_⟩
      simp [h.2.1, hw]
    · simp [hd] at hc
  · intro hs hu
    rcases DoExecute_paths env k ctx dev with ⟨_, e⟩ | ⟨_, _, _, e⟩ | ⟨ha, _, hw, e⟩ | ⟨_, hc, e⟩
    · simp [newEvents, e] at h
    · simp [newEvents, e] at h
    · simp only [newEvents, e, List.drop_left] at h ⊢
      simp [hs] at h
      refine ⟨newshape (ctx.GetInput 1).shape,
        (env.Realloc (dev.trace.length + 2) (newshape (ctx.GetInput 1).shape)).2,
        (env.Realloc (dev.trace.length + 2) (newshape (ctx.GetInput 1).shape)).2.addr, ?_⟩
      simp [h.2.1, hw, hu]
      intro hne
      exact fun heq => hne heq.symm
    · simp [hs, hu] at hc
  · intro hs env2 data on_device dev2 i2 w2 o2 bias2 tmp2 h2
    obtain ⟨hp, hctx, _⟩ := UpdateWeight_paths env2 k ctx data on_device dev2
    rw [hctx] at h2
    have hs2 : (UpdateWeight env2 k ctx data on_device dev2).kernel.param_.extra_param.is_initializer_weight
        = true := by rw [hp]; exact hs
    rw [key env2 _ _ i2 w2 o2 bias2 tmp2 h2 hs2, key env k dev i w o bias tmp h hs]

/-- Witness of C10: a static kernel after `UpdateWeight`, on a device that
never fails; the conversion writes the buffer at 300 and the primitive reads
input tensor 1's buffer at 20. -/
theorem DoExecute_weight_argument_witness :
    Event.Forward 10 20 0 30 400 ∈
      newEvents (UpdateWeight envOk kStatic ctxConv 50 true devEmpty).dev
        (DoExecute envOk (UpdateWeight envOk kStatic ctxConv 50 true devEmpty).kernel ctxConv
          (UpdateWeight envOk kStatic ctxConv 50 true devEmpty).dev).dev ∧
    ((UpdateWeight envOk kStatic ctxConv 50 true devEmpty).kernel.param_.extra_param.is_initializer_weight
        = true → 20 = (ctxConv.GetInput 1).GetBufferPtr) :=
  ⟨by decide,
    (DoExecute_weight_argument envOk (UpdateWeight envOk kStatic ctxConv 50 true devEmpty).kernel
      ctxConv (UpdateWeight envOk kStatic ctxConv 50 true devEmpty).dev 10 20 0 30 400
      (by decide)).1⟩

/-! ## UpdateWeight followed by DoExecute -/

/-- C4, as the code has it: for every prior kernel state, an `UpdateWeight`
whose buffer `Realloc` succeeds (whatever its converter then reports),
followed by a `DoExecute` in which no allocation fails, makes that
`DoExecute` invoke the relayout conversion exactly once. -/
theorem UpdateWeight_then_DoExecute_converts_once (env : Env) (k : ConvHmmaKernel)
    (ctx ctx2 : KernelExecContext) (data : Nat) (on_device : Bool) (dev : CudaDevice)
    (hU : ∀ bytes st b, Event.ReallocBytes bytes st b ∈
        newEvents dev (UpdateWeight env k ctx data on_device dev).dev → st = RC_SUCCESS)
    (hA : ∀ size st b, Event.AllocTmpBuffer size st b ∈
        newEvents (UpdateWeight env k ctx data on_device dev).dev
          (DoExecute env (UpdateWeight env k ctx data on_device dev).kernel ctx2
            (UpdateWeight env k ctx data on_device dev).dev).dev → st = RC_SUCCESS)
    (hW : ∀ shape st b, Event.Realloc shape st b ∈
        newEvents (UpdateWeight env k ctx data on_device dev).dev
          (DoExecute env (UpdateWeight env k ctx data on_device dev).kernel ctx2
            (UpdateWeight env k ctx data on_device dev).dev).dev → st = RC_SUCCESS) :
    (newEvents (UpdateWeight env k ctx data on_device dev).dev
      (DoExecute env (UpdateWeight env k ctx data on_device dev).kernel ctx2
        (UpdateWeight env k ctx data on_device dev).dev).dev).countP isCvtFlt = 1 := by
  have hflag : (UpdateWeight env k ctx data on_device dev).kernel.whether_update_weight_ = true := by
    rcases (UpdateWeight_paths env k ctx data on_device dev).2.2 with
      ⟨bytes, st, b, hne, hev, _, _⟩ | ⟨_, _, _, _, _, _, hf⟩
    · exact absurd (hU bytes st b (by simp [hev])) hne
    · exact hf
  rcases DoExecute_paths env (UpdateWeight env k ctx data on_device dev).kernel ctx2
      (UpdateWeight env k ctx data on_device dev).dev with
    ⟨ha, e⟩ | ⟨_, _, hw, e⟩ | ⟨_, _, _, e⟩ | ⟨_, hc, _⟩
  · simp only [newEvents, e, List.drop_left] at hA
    exact absurd (hA _ _ _ (List.mem_cons_of_mem _ (List.mem_cons_self _ _))) ha
  · simp only [newEvents, e, List.drop_left] at hW
    exact absurd (hW _ _ _
      (List.mem_cons_of_mem _ (List.mem_cons_of_mem _ (List.mem_cons_self _ _)))) hw
  · simp [newEvents, e, isCvtFlt]
  · simp [hflag] at hc

/-- Witness of C4: `UpdateWeight` from host memory and then `DoExecute`, on a
device that never fails. -/
theorem UpdateWeight_then_DoExecute_converts_once_witness :
    (newEvents (UpdateWeight envOk kStatic ctxConv 50 false devEmpty).dev
      (DoExecute envOk (UpdateWeight envOk kStatic ctxConv 50 false devEmpty).kernel ctxConv
        (UpdateWeight envOk kStatic ctxConv 50 false devEmpty).dev).dev).countP isCvtFlt = 1 :=
  UpdateWeight_then_DoExecute_converts_once envOk kStatic ctxConv ctxConv 50 false devEmpty
    (by intro bytes st b h; revert h; simp [newEvents, UpdateWeight, envOk, CudaDevice.log, devEmpty]
        intro _ h _; exact h)
    (by intro size st b h; revert h
        simp [newEvents, UpdateWeight, DoExecute, envOk, CudaDevice.log, devEmpty, kStatic, mkParam]
        intro _ h _; exact h)
    (by intro shape st b h; revert h
        simp [newEvents, UpdateWeight, DoExecute, envOk, CudaDevice.log, devEmpty, kStatic, mkParam]
        intro _ h _; exact h)

/-- Counterexample to C4 as stated: the `Realloc` of `UpdateWeight` fails, so
the update flag of the static kernel stays false; the `DoExecute` that follows
meets no allocation failure, returns success, and does not invoke the
relayout conversion. -/
theorem UpdateWeight_aborted_then_DoExecute_skips_conversion :
    (UpdateWeight envUpdateFails kStatic ctxConv 50 false devEmpty).status = 7 ∧
    newEvents (UpdateWeight envUpdateFails kStatic ctxConv 50 false devEmpty).dev
      (DoExecute envUpdateFails
        (UpdateWeight envUpdateFails kStatic ctxConv 50 false devEmpty).kernel ctxConv
        (UpdateWeight envUpdateFails kStatic ctxConv 50 false devEmpty).dev).dev
      = [Event.GetRuntimeBufSize workspace_cap 1024, Event.AllocTmpBuffer 1024 RC_SUCCESS ⟨400⟩,
         Event.Forward 10 20 0 30 400, Event.Free ⟨0⟩, Event.FreeTmpBuffer ⟨400⟩] ∧
    (DoExecute envUpdateFails
        (UpdateWeight envUpdateFails kStatic ctxConv 50 false devEmpty).kernel ctxConv
        (UpdateWeight envUpdateFails kStatic ctxConv 50 false devEmpty).dev).status = RC_SUCCESS ∧
    ¬ (newEvents (UpdateWeight envUpdateFails kStatic ctxConv 50 false devEmpty).dev
      (DoExecute envUpdateFails
        (UpdateWeight envUpdateFails kStatic ctxConv 50 false devEmpty).kernel ctxConv
        (UpdateWeight envUpdateFails kStatic ctxConv 50 false devEmpty).dev).dev).countP
          isCvtFlt = 1 := by
  decide

/-! ## Operands of the relayout conversion -/

/-- Whenever the relayout conversion runs in `DoExecute`, its destination is
the buffer this call has just obtained from `Realloc`, which the call frees
before it returns; its source is input tensor 1's buffer when no update is
pending and the destination itself when one is; afterwards the update flag is
false. -/
theorem DoExecute_conversion_operands (env : Env) (k : ConvHmmaKernel)
    (ctx : KernelExecContext) (dev : CudaDevice) (dst src : Nat)
    (h : Event.CvtFlt dst src ∈ newEvents dev (DoExecute env k ctx dev).dev) :
    (∃ shape, Event.Realloc shape RC_SUCCESS ⟨dst⟩ ∈ newEvents dev (DoExecute env k ctx dev).dev) ∧
    Event.Free ⟨dst⟩ ∈ newEvents dev (DoExecute env k ctx dev).dev ∧
    (k.whether_update_weight_ = false → src = (ctx.GetInput 1).GetBufferPtr) ∧
    (k.whether_update_weight_ = true → src = dst) ∧
    (DoExecute env k ctx dev).kernel.whether_update_weight_ = false := by
  rcases DoExecute_paths env k ctx dev with ⟨_, e⟩ | ⟨_, _, _, e⟩ | ⟨_, _, hw, e⟩ | ⟨_, _, e⟩
  · simp [newEvents, e] at h
  · simp [newEvents, e] at h
  · simp only [newEvents, e, List.drop_left] at h ⊢
    simp at h
    obtain ⟨hd, hsrc⟩ := h
    subst hd
    refine ⟨⟨newshape (ctx.GetInput 1).shape, by simp [hw]⟩, by simp, ?_, ?_, trivial⟩
    · intro hf; simp [hsrc, hf]
    · intro hf; simp [hsrc, hf]
  · simp [newEvents, e] at h

/-- C7 at its failing input: `UpdateWeight` fills `weight_desc_`, the buffer at
address 100, and sets the update flag; the `DoExecute` that follows calls the
relayout conversion with the buffer at 300, just obtained from `Realloc`, as
destination and as source.  The source is the destination, and it is not
`weight_desc_`. -/
theorem DoExecute_after_update_converts_in_place :
    (UpdateWeight envOk kStatic ctxConv 50 true devEmpty).kernel.weight_desc_ = ⟨100⟩ ∧
    (UpdateWeight envOk kStatic ctxConv 50 true devEmpty).kernel.whether_update_weight_ = true ∧
    newEvents devEmpty (UpdateWeight envOk kStatic ctxConv 50 true devEmpty).dev
      = [Event.ReallocBytes 9216 RC_SUCCESS ⟨100⟩, Event.Convert 100 50 RC_SUCCESS] ∧
    newEvents (UpdateWeight envOk kStatic ctxConv 50 true devEmpty).dev
      (DoExecute envOk (UpdateWeight envOk kStatic ctxConv 50 true devEmpty).kernel ctxConv
        (UpdateWeight envOk kStatic ctxConv 50 true devEmpty).dev).dev
      = [Event.GetRuntimeBufSize workspace_cap 1024, Event.AllocTmpBuffer 1024 RC_SUCCESS ⟨400⟩,
         Event.Realloc (newshape (shape4 32 16 3 3)) RC_SUCCESS ⟨300⟩, Event.CvtFlt 300 300,
         Event.Forward 10 20 0 30 400, Event.Free ⟨300⟩, Event.FreeTmpBuffer ⟨400⟩] := by
  decide

/-! ## The padded channel size -/

/-- For a positive alignment and a non-negative channel size, the padded size
is the smallest multiple of the alignment that is not below the channel
size, and it stays below channel size plus alignment. -/
theorem channel_size_pad_spec (channel_size align_size : Int)
    (ha : 0 < align_size) (hc : 0 ≤ channel_size) :
    align_size ∣ channel_size_pad channel_size align_size ∧
    channel_size ≤ channel_size_pad channel_size align_size ∧
    channel_size_pad channel_size align_size < channel_size + align_size ∧
    ∀ m : Int, align_size ∣ m → channel_size ≤ m →
      channel_size_pad channel_size align_size ≤ m := by
  have hnn : 0 ≤ channel_size + align_size - 1 := by omega
  have hq : (channel_size + align_size - 1).tdiv align_size
      = (channel_size + align_size - 1) / align_size :=
    Int.tdiv_eq_ediv hnn (le_of_lt ha)
  have hdm := Int.ediv_add_emod (channel_size + align_size - 1) align_size
  have hm0 := Int.emod_nonneg (channel_size + align_size - 1) (ne_of_gt ha)
  have hm1 := Int.emod_lt_of_pos (channel_size + align_size - 1) ha
  have hp : channel_size_pad channel_size align_size
      = align_size * ((channel_size + align_size - 1) / align_size) := by
    rw [channel_size_pad, hq, mul_comm]
  refine ⟨?_, ?_, ?_, ?_⟩
  · rw [hp]; exact Dvd.intro _ rfl
  · rw [hp]; omega
  · rw [hp]; omega
  · intro m hdvd hle
    obtain ⟨c, rfl⟩ := hdvd
    rw [hp]
    by_contra hlt
    have hlt2 : align_size * c < align_size * ((channel_size + align_size - 1) / align_size) := by
      omega
    have hcq : c < (channel_size + align_size - 1) / align_size :=
      lt_of_mul_lt_mul_left hlt2 (le_of_lt ha)
    have hstep : align_size * (c + 1)
        ≤ align_size * ((channel_size + align_size - 1) / align_size) :=
      mul_le_mul_of_nonneg_left (by omega) (le_of_lt ha)
    rw [mul_add, mul_one] at hstep
    omega

/-- In unsigned arithmetic of any width that holds the intermediate sum
`channel_size + align_size - 1`, the expression has the value it has over the
integers: nothing wraps. -/
theorem channel_size_pad_wrapped_eq (w : Nat) (channel_size align_size : Int)
    (ha : 0 < align_size) (hc : 0 ≤ channel_size)
    (hfit : channel_size + align_size - 1 < 2 ^ w) :
    channel_size_pad_wrapped w channel_size align_size
      = channel_size_pad channel_size align_size := by
  have hsp := channel_size_pad_spec channel_size align_size ha hc
  have hnn : 0 ≤ channel_size + align_size - 1 := by omega
  have h1 : (channel_size + align_size - 1) % 2 ^ w = channel_size + align_size - 1 :=
    Int.emod_eq_of_lt hnn hfit
  have h2 : channel_size_pad channel_size align_size % 2 ^ w
      = channel_size_pad channel_size align_size :=
    Int.emod_eq_of_lt (by omega) (by omega)
  rw [channel_size_pad_wrapped, h1]
  exact h2

/-! ## The fusion map -/

/-- A key that `find` does not see has no entry. -/
theorem entries_of_find_none (m : List (Int × BufferDesc)) (key : Int)
    (h : find m key = none) : entries m key = 0 := by
  induction m with
  | nil => rfl
  | cons p rest ih =>
    obtain ⟨a, b⟩ := p
    simp only [find, List.lookup_cons] at h
    by_cases hk : key = a
    · subst hk
      simp at h
    · have hb : (key == a) = false := by simpa using hk
      rw [hb] at h
      have hk2 : ¬ a = key := fun e => hk e.symm
      simp [entries, List.countP_cons, hk2]
      simpa [entries] using ih h

/-- After `emplace` on a key that was absent, the map holds the old entries
followed by the new one, `find` returns the new value and the key has exactly
one entry. -/
theorem emplace_of_find_none (m : List (Int × BufferDesc)) (key : Int) (value : BufferDesc)
    (h : find m key = none) :
    emplace m key value = m ++ [(key, value)] ∧
    find (emplace m key value) key = some value ∧
    entries (emplace m key value) key = 1 := by
  have h1 : emplace m key value = m ++ [(key, value)] := by simp [emplace, h]
  refine ⟨h1, ?_, ?_⟩
  · rw [h1]
    have h2 : List.lookup key m = none := h
    simp [find, List.lookup_append, h2, List.lookup_cons]
  · rw [h1]
    have h0 := entries_of_find_none m key h
    simp only [entries] at h0 ⊢
    simp [List.countP_append, h0]

/-! ## BeforeExecute: the output loop -/

/-- The loop body only appends to the log. -/
theorem bindOutput_extends (env : Env) (k : ConvHmmaKernel) (i : Nat) (status : RetCode)
    (tensor : TensorImpl) (dev : CudaDevice) :
    ∃ evs, (bindOutput env k i status tensor dev).2.2.trace = dev.trace ++ evs := by
  refine ⟨(bindOutput env k i status tensor dev).2.2.trace.drop dev.trace.length, ?_⟩
  by_cases hco : 0 ≤ k.param_.extra_param.fuse_info.channel_offset
  · cases hf : find dev.edge2buffer k.param_.extra_param.fuse_info.concat_edge_id with
    | none =>
      by_cases hr : (env.Realloc (dev.trace.length + 1) (concat_shape env k tensor)).1
          = RC_SUCCESS
      · simp [bindOutput, CudaDevice.log, hco, hf, hr]
      · simp [bindOutput, CudaDevice.log, hco, hf, hr]
    | some b => simp [bindOutput, CudaDevice.log, hco, hf]
  · simp [bindOutput, CudaDevice.log, hco]

/-- The loop only appends to the log. -/
theorem bindOutputs_extends (env : Env) (k : ConvHmmaKernel) (outs : List TensorImpl) :
    ∀ (i : Nat) (status : RetCode) (dev : CudaDevice),
      ∃ evs, (bindOutputs env k i status outs dev).2.2.trace = dev.trace ++ evs := by
  induction outs with
  | nil => intro i status dev; exact ⟨[], by simp [bindOutputs]⟩
  | cons t rest ih =>
    intro i status dev
    obtain ⟨e1, h1⟩ := bindOutput_extends env k i status t dev
    simp only [bindOutputs]
    split_ifs with hst
    · exact ⟨e1, h1⟩
    · obtain ⟨e2, h2⟩ := ih (i + 1) (bindOutput env k i status t dev).1
        (bindOutput env k i status t dev).2.2
      exact ⟨e1 ++ e2, by rw [h2, h1, List.append_assoc]⟩

/-- Outside a fusion group the loop never calls the device `Realloc` and
never touches the fusion map. -/
theorem bindOutputs_unfused (env : Env) (k : ConvHmmaKernel)
    (hco : ¬ 0 ≤ k.param_.extra_param.fuse_info.channel_offset) (outs : List TensorImpl) :
    ∀ (i : Nat) (status : RetCode) (dev : CudaDevice),
      ∃ evs, (bindOutputs env k i status outs dev).2.2
          = ⟨dev.edge2buffer, dev.trace ++ evs⟩ ∧ evs.countP isRealloc = 0 := by
  induction outs with
  | nil => intro i status dev; exact ⟨[], by simp [bindOutputs]⟩
  | cons t rest ih =>
    intro i status dev
    have hb : (bindOutput env k i status t dev).2.2
        = ⟨dev.edge2buffer, dev.trace ++ [Event.SetDevice i,
            Event.ReallocBuffer i (env.ReallocBuffer (dev.trace.length + 1) t).1
              (env.ReallocBuffer (dev.trace.length + 1) t).2]⟩ := by
      simp [bindOutput, CudaDevice.log, hco]
    simp only [bindOutputs]
    split_ifs with hst
    · exact ⟨_, hb, by simp [isRealloc]⟩
    · obtain ⟨e2, h2, hc2⟩ := ih (i + 1) (bindOutput env k i status t dev).1
        (bindOutput env k i status t dev).2.2
      refine ⟨[Event.SetDevice i,
            Event.ReallocBuffer i (env.ReallocBuffer (dev.trace.length + 1) t).1
              (env.ReallocBuffer (dev.trace.length + 1) t).2] ++ e2, ?_, ?_⟩
      · rw [h2, hb]; simp
      · rw [List.countP_append, hc2]; simp [isRealloc]

/-- Once the group has its entry, the loop binds every remaining output to the
recorded buffer, calls `Realloc` no more and leaves the map as it is. -/
theorem bindOutputs_found (env : Env) (k : ConvHmmaKernel) (b : BufferDesc)
    (hco : 0 ≤ k.param_.extra_param.fuse_info.channel_offset) (outs : List TensorImpl) :
    ∀ (i : Nat) (dev : CudaDevice),
      find dev.edge2buffer k.param_.extra_param.fuse_info.concat_edge_id = some b →
      ∃ evs, bindOutputs env k i RC_SUCCESS outs dev
          = (RC_SUCCESS, outs.map (fun t => t.SetBuffer b),
              ⟨dev.edge2buffer, dev.trace ++ evs⟩) ∧ evs.countP isRealloc = 0 := by
  induction outs with
  | nil => intro i dev _; exact ⟨[], by simp [bindOutputs]⟩
  | cons t rest ih =>
    intro i dev hf
    have hb : bindOutput env k i RC_SUCCESS t dev
        = (RC_SUCCESS, t.SetBuffer b,
            ⟨dev.edge2buffer, dev.trace ++ [Event.SetDevice i, Event.SetBuffer i b]⟩) := by
      simp [bindOutput, CudaDevice.log, hco, hf]
    obtain ⟨e2, h2, hc2⟩ := ih (i + 1)
      ⟨dev.edge2buffer, dev.trace ++ [Event.SetDevice i, Event.SetBuffer i b]⟩ hf
    refine ⟨[Event.SetDevice i, Event.SetBuffer i b] ++ e2, ?_, ?_⟩
    · simp only [bindOutputs, hb]
      simp [h2]
    · rw [List.countP_append, hc2]; simp [isRealloc]

/-- The first output of a group that has no entry yet: the loop asks `Realloc`
for the padded shape.  If that fails the loop stops at once, with nothing
bound and nothing recorded; if it succeeds the buffer is bound and recorded,
and every later output is bound to it without another `Realloc`. -/
theorem bindOutputs_first (env : Env) (k : ConvHmmaKernel)
    (hco : 0 ≤ k.param_.extra_param.fuse_info.channel_offset)
    (i : Nat) (status : RetCode) (t : TensorImpl) (rest : List TensorImpl) (dev : CudaDevice)
    (hf : find dev.edge2buffer k.param_.extra_param.fuse_info.concat_edge_id = none) :
    ((env.Realloc (dev.trace.length + 1) (concat_shape env k t)).1 ≠ RC_SUCCESS →
      bindOutputs env k i status (t :: rest) dev
        = ((env.Realloc (dev.trace.length + 1) (concat_shape env k t)).1, t :: rest,
            ⟨dev.edge2buffer, dev.trace ++ [Event.SetDevice i,
              Event.Realloc (concat_shape env k t)
                (env.Realloc (dev.trace.length + 1) (concat_shape env k t)).1
                (env.Realloc (dev.trace.length + 1) (concat_shape env k t)).2]⟩)) ∧
    ((env.Realloc (dev.trace.length + 1) (concat_shape env k t)).1 = RC_SUCCESS →
      ∃ evs, bindOutputs env k i status (t :: rest) dev
        = (RC_SUCCESS,
            (t :: rest).map (fun x =>
              x.SetBuffer (env.Realloc (dev.trace.length + 1) (concat_shape env k t)).2),
            ⟨dev.edge2buffer ++ [(k.param_.extra_param.fuse_info.concat_edge_id,
                (env.Realloc (dev.trace.length + 1) (concat_shape env k t)).2)],
              dev.trace ++ ([Event.SetDevice i,
                Event.Realloc (concat_shape env k t) RC_SUCCESS
                  (env.Realloc (dev.trace.length + 1) (concat_shape env k t)).2,
                Event.SetBuffer i (env.Realloc (dev.trace.length + 1) (concat_shape env k t)).2]
                ++ evs)⟩) ∧ evs.countP isRealloc = 0) := by
  generalize ha : env.Realloc (dev.trace.length + 1) (concat_shape env k t) = a
  obtain ⟨st, b⟩ := a
  have hem := emplace_of_find_none dev.edge2buffer
    k.param_.extra_param.fuse_info.concat_edge_id b hf
  constructor
  · intro hne
    simp only at hne
    simp [bindOutputs, bindOutput, CudaDevice.log, hco, hf, ha, hne]
  · intro heq
    simp only at heq
    subst heq
    have hb : bindOutput env k i status t dev
        = (RC_SUCCESS, t.SetBuffer b,
            ⟨dev.edge2buffer ++ [(k.param_.extra_param.fuse_info.concat_edge_id, b)],
              dev.trace ++ [Event.SetDevice i, Event.Realloc (concat_shape env k t) RC_SUCCESS b,
                Event.SetBuffer i b]⟩) := by
      simp [bindOutput, CudaDevice.log, hco, hf, ha, hem.1]
    have hf2 : find (dev.edge2buffer ++ [(k.param_.extra_param.fuse_info.concat_edge_id, b)])
        k.param_.extra_param.fuse_info.concat_edge_id = some b := by
      rw [← hem.1]; exact hem.2.1
    obtain ⟨e2, h2, hc2⟩ := bindOutputs_found env k b hco rest (i + 1)
      ⟨dev.edge2buffer ++ [(k.param_.extra_param.fuse_info.concat_edge_id, b)],
        dev.trace ++ [Event.SetDevice i, Event.Realloc (concat_shape env k t) RC_SUCCESS b,
          Event.SetBuffer i b]⟩ hf2
    refine ⟨e2, ?_, hc2⟩
    simp only [bindOutputs, hb]
    simp [h2]

/-! ## BeforeExecute: the six paths -/

/-- The result of `BeforeExecute`, path by path: `Reshape` fails; the kernel is
outside any fusion group; the group already has its buffer; there is no
output; the `Realloc` for the group's buffer fails; that `Realloc` succeeds. -/
theorem BeforeExecute_paths (env : Env) (k : ConvHmmaKernel) (ctx : KernelExecContext)
    (dev : CudaDevice) :
    ((env.Reshape dev.trace.length ctx).1 ≠ RC_SUCCESS ∧
      BeforeExecute env k ctx dev
        = ⟨(env.Reshape dev.trace.length ctx).1, k, (env.Reshape dev.trace.length ctx).2,
            ⟨dev.edge2buffer, dev.trace ++ [Event.Reshape (env.Reshape dev.trace.length ctx).1]⟩⟩) ∨
    ((env.Reshape dev.trace.length ctx).1 = RC_SUCCESS ∧
      ¬ 0 ≤ k.param_.extra_param.fuse_info.channel_offset ∧
      ∃ evs, (BeforeExecute env k ctx dev).dev
          = ⟨dev.edge2buffer, dev.trace ++ (Event.Reshape RC_SUCCESS :: evs)⟩ ∧
        evs.countP isRealloc = 0) ∨
    ((env.Reshape dev.trace.length ctx).1 = RC_SUCCESS ∧
      0 ≤ k.param_.extra_param.fuse_info.channel_offset ∧
      ∃ b evs, find dev.edge2buffer k.param_.extra_param.fuse_info.concat_edge_id = some b ∧
        BeforeExecute env k ctx dev
          = ⟨RC_SUCCESS, k,
              { (env.Reshape dev.trace.length ctx).2 with
                outputs := (env.Reshape dev.trace.length ctx).2.outputs.map
                  (fun t => t.SetBuffer b) },
              ⟨dev.edge2buffer, dev.trace ++ (Event.Reshape RC_SUCCESS :: evs)⟩⟩ ∧
        evs.countP isRealloc = 0) ∨
    ((env.Reshape dev.trace.length ctx).1 = RC_SUCCESS ∧
      (env.Reshape dev.trace.length ctx).2.outputs = [] ∧
      BeforeExecute env k ctx dev
        = ⟨RC_SUCCESS, k, (env.Reshape dev.trace.length ctx).2,
            ⟨dev.edge2buffer, dev.trace ++ [Event.Reshape RC_SUCCESS]⟩⟩) ∨
    ((env.Reshape dev.trace.length ctx).1 = RC_SUCCESS ∧
      0 ≤ k.param_.extra_param.fuse_info.channel_offset ∧
      find dev.edge2buffer k.param_.extra_param.fuse_info.concat_edge_id = none ∧
      ∃ t rest st b, (env.Reshape dev.trace.length ctx).2.outputs = t :: rest ∧
        env.Realloc (dev.trace.length + 2) (concat_shape env k t) = (st, b) ∧
        st ≠ RC_SUCCESS ∧
        BeforeExecute env k ctx dev
          = ⟨st, k, (env.Reshape dev.trace.length ctx).2,
              ⟨dev.edge2buffer, dev.trace ++ [Event.Reshape RC_SUCCESS, Event.SetDevice 0,
                Event.Realloc (concat_shape env k t) st b]⟩⟩) ∨
    ((env.Reshape dev.trace.length ctx).1 = RC_SUCCESS ∧
      0 ≤ k.param_.extra_param.fuse_info.channel_offset ∧
      find dev.edge2buffer k.param_.extra_param.fuse_info.concat_edge_id = none ∧
      ∃ t rest b evs, (env.Reshape dev.trace.length ctx).2.outputs = t :: rest ∧
        env.Realloc (dev.trace.length + 2) (concat_shape env k t) = (RC_SUCCESS, b) ∧
        BeforeExecute env k ctx dev
          = ⟨RC_SUCCESS, k,
              { (env.Reshape dev.trace.length ctx).2 with
                outputs := (t :: rest).map (fun x => x.SetBuffer b) },
              ⟨dev.edge2buffer ++ [(k.param_.extra_param.fuse_info.concat_edge_id, b)],
                dev.trace ++ ([Event.Reshape RC_SUCCESS, Event.SetDevice 0,
                  Event.Realloc (concat_shape env k t) RC_SUCCESS b, Event.SetBuffer 0 b]
                  ++ evs)⟩⟩ ∧
        evs.countP isRealloc = 0) := by
  generalize hr : env.Reshape dev.trace.length ctx = r
  obtain ⟨rs, c⟩ := r
  by_cases hrs : rs = RC_SUCCESS
  swap
  · left
    exact ⟨hrs, by simp [BeforeExecute, CudaDevice.log, hr, hrs]⟩
  subst hrs
  right
  have hBE : BeforeExecute env k ctx dev
      = ⟨(bindOutputs env k 0 RC_SUCCESS c.outputs
            ⟨dev.edge2buffer, dev.trace ++ [Event.Reshape RC_SUCCESS]⟩).1, k,
          { c with outputs := (bindOutputs env k 0 RC_SUCCESS c.outputs
            ⟨dev.edge2buffer, dev.trace ++ [Event.Reshape RC_SUCCESS]⟩).2.1 },
          (bindOutputs env k 0 RC_SUCCESS c.outputs
            ⟨dev.edge2buffer, dev.trace ++ [Event.Reshape RC_SUCCESS]⟩).2.2⟩ := by
    simp [BeforeExecute, CudaDevice.log, hr]
  by_cases hco : 0 ≤ k.param_.extra_param.fuse_info.channel_offset
  swap
  · left
    obtain ⟨evs, h1, h2⟩ := bindOutputs_unfused env k hco c.outputs 0 RC_SUCCESS
      ⟨dev.edge2buffer, dev.trace ++ [Event.Reshape RC_SUCCESS]⟩
    refine ⟨rfl, hco, evs, ?_, h2⟩
    rw [hBE]
    simp [h1]
  right
  cases hf : find dev.edge2buffer k.param_.extra_param.fuse_info.concat_edge_id with
  | some b =>
    left
    obtain ⟨evs, h1, h2⟩ := bindOutputs_found env k b hco c.outputs 0
      ⟨dev.edge2buffer, dev.trace ++ [Event.Reshape RC_SUCCESS]⟩ hf
    refine ⟨rfl, hco, b, evs, rfl, ?_, h2⟩
    rw [hBE, h1]
    simp
  | none =>
    right
    obtain ⟨ci, outs⟩ := c
    cases outs with
    | nil =>
      left
      refine ⟨rfl, rfl, ?_⟩
      rw [hBE]
      simp [bindOutputs]
    | cons t rest =>
      right
      obtain ⟨hfail, hok⟩ := bindOutputs_first env k hco 0 RC_SUCCESS t rest
        ⟨dev.edge2buffer, dev.trace ++ [Event.Reshape RC_SUCCESS]⟩ hf
      simp only [List.length_append, List.length_singleton] at hfail hok
      generalize ha : env.Realloc (dev.trace.length + 1 + 1) (concat_shape env k t) = a at hfail hok
      obtain ⟨st, b⟩ := a
      by_cases hst : st = RC_SUCCESS
      · right
        subst hst
        obtain ⟨evs, h1, h2⟩ := hok rfl
        refine ⟨rfl, hco, rfl, t, rest, b, evs, rfl, ha, ?_, h2⟩
        rw [hBE]
        simp only [h1]
        simp
      · left
        have h1 := hfail hst
        refine ⟨rfl, hco, rfl, t, rest, st, b, rfl, ha, hst, ?_⟩
        rw [hBE]
        simp only [h1]
        simp

/-- The log after `BeforeExecute` is the log before it followed by the events
of the call. -/
theorem BeforeExecute_trace (env : Env) (k : ConvHmmaKernel) (ctx : KernelExecContext)
    (dev : CudaDevice) :
    (BeforeExecute env k ctx dev).dev.trace
      = dev.trace ++ newEvents dev (BeforeExecute env k ctx dev).dev := by
  rcases BeforeExecute_paths env k ctx dev with
    ⟨_, h⟩ | ⟨_, _, _, h, _⟩ | ⟨_, _, _, _, _, h, _⟩ | ⟨_, _, h⟩ |
    ⟨_, _, _, _, _, _, _, _, _, _, h⟩ | ⟨_, _, _, _, _, _, _, _, _, h, _⟩ <;>
    simp [newEvents, h]

/-! ## BeforeExecute: failures -/

/-- C8: when the device `Realloc` for a fusion group's buffer fails,
`BeforeExecute` returns the allocator's status, the failing `Realloc` on the
first output is the last event of the call (no buffer is bound, no later
output is visited), the context is as `Reshape` left it, and the fusion map
is unchanged, still without an entry for the group.  When `Reshape` fails,
its status is returned, no other call is made and the map is unchanged. -/
theorem BeforeExecute_failure (env : Env) (k : ConvHmmaKernel) (ctx : KernelExecContext)
    (dev : CudaDevice) :
    (∀ shape st b,
      Event.Realloc shape st b ∈ newEvents dev (BeforeExecute env k ctx dev).dev →
      st ≠ RC_SUCCESS →
        (BeforeExecute env k ctx dev).status = st ∧
        newEvents dev (BeforeExecute env k ctx dev).dev
          = [Event.Reshape RC_SUCCESS, Event.SetDevice 0, Event.Realloc shape st b] ∧
        (BeforeExecute env k ctx dev).ctx = (env.Reshape dev.trace.length ctx).2 ∧
        (BeforeExecute env k ctx dev).dev.edge2buffer = dev.edge2buffer ∧
        find (BeforeExecute env k ctx dev).dev.edge2buffer
          k.param_.extra_param.fuse_info.concat_edge_id = none) ∧
    ((env.Reshape dev.trace.length ctx).1 ≠ RC_SUCCESS →
      (BeforeExecute env k ctx dev).status = (env.Reshape dev.trace.length ctx).1 ∧
      newEvents dev (BeforeExecute env k ctx dev).dev
        = [Event.Reshape (env.Reshape dev.trace.length ctx).1] ∧
      (BeforeExecute env k ctx dev).ctx = (env.Reshape dev.trace.length ctx).2 ∧
      (BeforeExecute env k ctx dev).dev.edge2buffer = dev.edge2buffer) := by
  have hmem : ∀ (evs : List Event) (e : Event), evs.countP isRealloc = 0 → e ∈ evs →
      isRealloc e = true → False := by
    intro evs e h0 he hr
    have := List.countP_pos_iff.mpr ⟨e, he, hr⟩
    omega
  rcases BeforeExecute_paths env k ctx dev with
    ⟨hr, h⟩ | ⟨hr, _, evs, h, h0⟩ | ⟨hr, _, _, evs, _, h, h0⟩ | ⟨hr, _, h⟩ |
    ⟨hr, _, hf, t, rest, st, b, _, _, hst, h⟩ | ⟨hr, _, _, t, rest, b, evs, _, _, h, h0⟩
  · refine ⟨?_, fun _ => by simp [newEvents, h]⟩
    intro shape st b hm
    simp [newEvents, h] at hm
  · refine ⟨?_, fun hne => absurd hr hne⟩
    intro shape st b hm
    simp [newEvents, h] at hm
    exact (hmem evs _ h0 hm rfl).elim
  · refine ⟨?_, fun hne => absurd hr hne⟩
    intro shape st b hm
    simp [newEvents, h] at hm
    exact (hmem evs _ h0 hm rfl).elim
  · refine ⟨?_, fun hne => absurd hr hne⟩
    intro shape st b hm
    simp [newEvents, h] at hm
  · refine ⟨?_, fun hne => absurd hr hne⟩
    intro shape st2 b2 hm _
    simp [newEvents, h] at hm
    obtain ⟨rfl, rfl, rfl⟩ := hm
    simp [newEvents, h, hf]
  · refine ⟨?_, fun hne => absurd hr hne⟩
    intro shape st2 b2 hm hne
    simp [newEvents, h] at hm
    rcases hm with ⟨_, hs, _⟩ | hm
    · exact absurd hs hne
    · exact (hmem evs _ h0 hm rfl).elim

/-- Witness of C8: the first member of fusion group 7 on a device whose
`Realloc` fails with status 7. -/
theorem BeforeExecute_failure_witness :
    (BeforeExecute envReallocFails kFusedA ctxTwoOutputs devEmpty).status = 7 ∧
    newEvents devEmpty (BeforeExecute envReallocFails kFusedA ctxTwoOutputs devEmpty).dev
      = [Event.Reshape RC_SUCCESS, Event.SetDevice 0,
         Event.Realloc (shape4 1 64 32 32) 7 ⟨0⟩] ∧
    (BeforeExecute envReallocFails kFusedA ctxTwoOutputs devEmpty).ctx = ctxTwoOutputs ∧
    (BeforeExecute envReallocFails kFusedA ctxTwoOutputs devEmpty).dev.edge2buffer = [] ∧
    find (BeforeExecute envReallocFails kFusedA ctxTwoOutputs devEmpty).dev.edge2buffer 7 = none :=
  (BeforeExecute_failure envReallocFails kFusedA ctxTwoOutputs devEmpty).1
    (shape4 1 64 32 32) 7 ⟨0⟩ (by decide) (by decide)

/-! ## BeforeExecute: the shape of a fusion group's buffer -/

/-- C2: every shape that `BeforeExecute` passes to the device `Realloc` is the
shape of the first output tensor with dimension 1 replaced by the padded
channel size computed from `fuse_info.channel_size`; data type, data format,
padding and every other dimension are those of the tensor.  For a positive
alignment and a non-negative `channel_size` the padded size is the smallest
multiple of the alignment that is not below `channel_size`. -/
theorem BeforeExecute_realloc_shape (env : Env) (k : ConvHmmaKernel)
    (ctx : KernelExecContext) (dev : CudaDevice) (shape : TensorShape) (st : RetCode)
    (b : BufferDesc)
    (h : Event.Realloc shape st b ∈ newEvents dev (BeforeExecute env k ctx dev).dev) :
    ∃ t rest, (env.Reshape dev.trace.length ctx).2.outputs = t :: rest ∧
      shape = t.shape.SetDim 1
        (channel_size_pad k.param_.extra_param.fuse_info.channel_size
          (env.GetDataFormatChannelAlignment t.shape.data_format)) ∧
      shape.data_type = t.shape.data_type ∧
      shape.data_format = t.shape.data_format ∧
      shape.padding1 = t.shape.padding1 ∧
      shape.dims.length = t.shape.dims.length ∧
      (∀ j, j ≠ 1 → shape.dims[j]? = t.shape.dims[j]?) ∧
      (1 < t.shape.dims.length →
        shape.dims[1]? = some (channel_size_pad k.param_.extra_param.fuse_info.channel_size
          (env.GetDataFormatChannelAlignment t.shape.data_format))) ∧
      (0 < env.GetDataFormatChannelAlignment t.shape.data_format →
        0 ≤ k.param_.extra_param.fuse_info.channel_size →
        env.GetDataFormatChannelAlignment t.shape.data_format ∣
          channel_size_pad k.param_.extra_param.fuse_info.channel_size
            (env.GetDataFormatChannelAlignment t.shape.data_format) ∧
        k.param_.extra_param.fuse_info.channel_size ≤
          channel_size_pad k.param_.extra_param.fuse_info.channel_size
            (env.GetDataFormatChannelAlignment t.shape.data_format) ∧
        ∀ m : Int, env.GetDataFormatChannelAlignment t.shape.data_format ∣ m →
          k.param_.extra_param.fuse_info.channel_size ≤ m →
          channel_size_pad k.param_.extra_param.fuse_info.channel_size
            (env.GetDataFormatChannelAlignment t.shape.data_format) ≤ m) := by
  have hmem : ∀ (evs : List Event) (e : Event), evs.countP isRealloc = 0 → e ∈ evs →
      isRealloc e = true → False := by
    intro evs e h0 he hr
    have := List.countP_pos_iff.mpr ⟨e, he, hr⟩
    omega
  have hshape : ∀ t : TensorImpl, shape = concat_shape env k t →
      shape = t.shape.SetDim 1
        (channel_size_pad k.param_.extra_param.fuse_info.channel_size
          (env.GetDataFormatChannelAlignment t.shape.data_format)) ∧
      shape.data_type = t.shape.data_type ∧
      shape.data_format = t.shape.data_format ∧
      shape.padding1 = t.shape.padding1 ∧
      shape.dims.length = t.shape.dims.length ∧
      (∀ j, j ≠ 1 → shape.dims[j]? = t.shape.dims[j]?) ∧
      (1 < t.shape.dims.length →
        shape.dims[1]? = some (channel_size_pad k.param_.extra_param.fuse_info.channel_size
          (env.GetDataFormatChannelAlignment t.shape.data_format))) ∧
      (0 < env.GetDataFormatChannelAlignment t.shape.data_format →
        0 ≤ k.param_.extra_param.fuse_info.channel_size →
        env.GetDataFormatChannelAlignment t.shape.data_format ∣
          channel_size_pad k.param_.extra_param.fuse_info.channel_size
            (env.GetDataFormatChannelAlignment t.shape.data_format) ∧
        k.param_.extra_param.fuse_info.channel_size ≤
          channel_size_pad k.param_.extra_param.fuse_info.channel_size
            (env.GetDataFormatChannelAlignment t.shape.data_format) ∧
        ∀ m : Int, env.GetDataFormatChannelAlignment t.shape.data_format ∣ m →
          k.param_.extra_param.fuse_info.channel_size ≤ m →
          channel_size_pad k.param_.extra_param.fuse_info.channel_size
            (env.GetDataFormatChannelAlignment t.shape.data_format) ≤ m) := by
    intro t hs
    subst hs
    refine ⟨rfl, rfl, rfl, rfl, by simp [concat_shape, TensorShape.SetDim], ?_, ?_, ?_⟩
    · intro j hj
      have hj2 : ¬ 1 = j := fun e => hj e.symm
      simp [concat_shape, TensorShape.SetDim, List.getElem?_set, hj2]
    · intro hlen
      simp [concat_shape, TensorShape.SetDim, List.getElem?_set, hlen]
    · intro ha hc
      have hsp := channel_size_pad_spec _ _ ha hc
      exact ⟨hsp.1, hsp.2.1, hsp.2.2.2⟩
  rcases BeforeExecute_paths env k ctx dev with
    ⟨hr, e⟩ | ⟨hr, _, evs, e, h0⟩ | ⟨hr, _, _, evs, _, e, h0⟩ | ⟨hr, _, e⟩ |
    ⟨hr, _, hf, t, rest, st2, b2, hout, _, hst, e⟩ | ⟨hr, _, _, t, rest, b2, evs, hout, _, e, h0⟩
  · simp [newEvents, e] at h
  · simp [newEvents, e] at h
    exact (hmem evs _ h0 h rfl).elim
  · simp [newEvents, e] at h
    exact (hmem evs _ h0 h rfl).elim
  · simp [newEvents, e] at h
  · simp [newEvents, e] at h
    exact ⟨t, rest, hout, hshape t h.1⟩
  · simp [newEvents, e] at h
    rcases h with ⟨hs, _, _⟩ | h
    · exact ⟨t, rest, hout, hshape t hs⟩
    · exact (hmem evs _ h0 h rfl).elim

/-- Witness of C2: group 7 with declared total channel size 64 and alignment
8; the buffer is requested with channel dimension 64, the other dimensions of
the output `[1,32,32,32]` being kept. -/
theorem BeforeExecute_realloc_shape_witness :
    Event.Realloc (shape4 1 64 32 32) RC_SUCCESS ⟨300⟩
      ∈ newEvents devEmpty (BeforeExecute envOk kFusedA ctxConv devEmpty).dev ∧
    channel_size_pad 64 8 = 64 ∧
    ∃ t rest, (envOk.Reshape devEmpty.trace.length ctxConv).2.outputs = t :: rest ∧
      shape4 1 64 32 32 = t.shape.SetDim 1
        (channel_size_pad kFusedA.param_.extra_param.fuse_info.channel_size
          (envOk.GetDataFormatChannelAlignment t.shape.data_format)) :=
  ⟨by decide, by decide,
    (BeforeExecute_realloc_shape envOk kFusedA ctxConv devEmpty (shape4 1 64 32 32) RC_SUCCESS
      ⟨300⟩ (by decide)).imp (fun _ ht => ht.imp (fun _ hr => ⟨hr.1, hr.2.1⟩))⟩

/-! ## BeforeExecute: one buffer per fusion group -/

/-- A single output of a group that has its entry: the body binds it to the
recorded buffer and the loop ends. -/
theorem bindOutputs_found_one (env : Env) (k : ConvHmmaKernel) (i : Nat) (t : TensorImpl)
    (dev : CudaDevice) (b : BufferDesc)
    (hco : 0 ≤ k.param_.extra_param.fuse_info.channel_offset)
    (hf : find dev.edge2buffer k.param_.extra_param.fuse_info.concat_edge_id = some b) :
    bindOutputs env k i RC_SUCCESS [t] dev
      = (RC_SUCCESS, [t.SetBuffer b],
          ⟨dev.edge2buffer, dev.trace ++ [Event.SetDevice i, Event.SetBuffer i b]⟩) := by
  simp [bindOutputs, bindOutput, CudaDevice.log, hco, hf]

/-- The first member of a group: `BeforeExecute` up to the end of the first
iteration, the remaining outputs being left to the loop. -/
theorem BeforeExecute_first_member (env : Env) (k : ConvHmmaKernel) (ctx c : KernelExecContext)
    (dev : CudaDevice) (t : TensorImpl) (rest : List TensorImpl) (b : BufferDesc)
    (hr : env.Reshape dev.trace.length ctx = (RC_SUCCESS, c))
    (hout : c.outputs = t :: rest)
    (hco : 0 ≤ k.param_.extra_param.fuse_info.channel_offset)
    (hf : find dev.edge2buffer k.param_.extra_param.fuse_info.concat_edge_id = none)
    (ha : env.Realloc (dev.trace.length + 2) (concat_shape env k t) = (RC_SUCCESS, b)) :
    BeforeExecute env k ctx dev
      = ⟨(bindOutputs env k 1 RC_SUCCESS rest
            ⟨dev.edge2buffer ++ [(k.param_.extra_param.fuse_info.concat_edge_id, b)],
              dev.trace ++ [Event.Reshape RC_SUCCESS, Event.SetDevice 0,
                Event.Realloc (concat_shape env k t) RC_SUCCESS b, Event.SetBuffer 0 b]⟩).1,
          k,
          { c with outputs := t.SetBuffer b :: (bindOutputs env k 1 RC_SUCCESS rest
            ⟨dev.edge2buffer ++ [(k.param_.extra_param.fuse_info.concat_edge_id, b)],
              dev.trace ++ [Event.Reshape RC_SUCCESS, Event.SetDevice 0,
                Event.Realloc (concat_shape env k t) RC_SUCCESS b, Event.SetBuffer 0 b]⟩).2.1 },
          (bindOutputs env k 1 RC_SUCCESS rest
            ⟨dev.edge2buffer ++ [(k.param_.extra_param.fuse_info.concat_edge_id, b)],
              dev.trace ++ [Event.Reshape RC_SUCCESS, Event.SetDevice 0,
                Event.Realloc (concat_shape env k t) RC_SUCCESS b, Event.SetBuffer 0 b]⟩).2.2⟩ := by
  have hem := (emplace_of_find_none dev.edge2buffer
    k.param_.extra_param.fuse_info.concat_edge_id b hf).1
  have ha2 : env.Realloc (dev.trace.length + 1 + 1) (concat_shape env k t)
      = (RC_SUCCESS, b) := ha
  simp [BeforeExecute, bindOutputs, bindOutput, CudaDevice.log, hr, hout, hco, hf, ha, ha2, hem]

/-- A later member of a group with a single output: `BeforeExecute` binds the
output to the recorded buffer and calls no allocator. -/
theorem BeforeExecute_later_member_one (env : Env) (k : ConvHmmaKernel)
    (ctx c : KernelExecContext) (dev : CudaDevice) (t : TensorImpl) (b : BufferDesc)
    (hr : env.Reshape dev.trace.length ctx = (RC_SUCCESS, c))
    (hout : c.outputs = [t])
    (hco : 0 ≤ k.param_.extra_param.fuse_info.channel_offset)
    (hf : find dev.edge2buffer k.param_.extra_param.fuse_info.concat_edge_id = some b) :
    BeforeExecute env k ctx dev
      = ⟨RC_SUCCESS, k, { c with outputs := [t.SetBuffer b] },
          ⟨dev.edge2buffer,
            dev.trace ++ [Event.Reshape RC_SUCCESS, Event.SetDevice 0, Event.SetBuffer 0 b]⟩⟩ := by
  have h1 := bindOutputs_found_one env k 0 t
    ⟨dev.edge2buffer, dev.trace ++ [Event.Reshape RC_SUCCESS]⟩ b hco hf
  simp [BeforeExecute, CudaDevice.log, hr, hout, h1]

/-- C1: on a device whose fusion map has no entry for group `g`, with
`Reshape` and `Realloc` succeeding, binding two outputs of group `g`
(`concat_edge_id = g`, `channel_offset ≥ 0`), either both by one kernel or one
each by two kernels run one after the other on the device, calls `Realloc`
exactly once in total (the log of the calls is given in full), leaves exactly
one entry for `g` in the map, holding the buffer that this `Realloc` returned,
and leaves the `buffer` of both output tensors equal to that same descriptor,
their shapes being untouched.  The declared channel sizes play no part in
this. -/
theorem BeforeExecute_group_allocated_once (env : Env) (g : Int) (dev : CudaDevice)
    (k kA kB : ConvHmmaKernel) (ctx ctxA ctxB : KernelExecContext) (t1 t2 : TensorImpl)
    (hR : ∀ n c, (env.Reshape n c).1 = RC_SUCCESS)
    (hA : ∀ n s, (env.Realloc n s).1 = RC_SUCCESS)
    (hnone : find dev.edge2buffer g = none)
    (hk : k.param_.extra_param.fuse_info.concat_edge_id = g ∧
      0 ≤ k.param_.extra_param.fuse_info.channel_offset)
    (hkA : kA.param_.extra_param.fuse_info.concat_edge_id = g ∧
      0 ≤ kA.param_.extra_param.fuse_info.channel_offset)
    (hkB : kB.param_.extra_param.fuse_info.concat_edge_id = g ∧
      0 ≤ kB.param_.extra_param.fuse_info.channel_offset)
    (hctx : ∀ n, (env.Reshape n ctx).2.outputs = [t1, t2])
    (hctxA : ∀ n, (env.Reshape n ctxA).2.outputs = [t1])
    (hctxB : ∀ n, (env.Reshape n ctxB).2.outputs = [t2]) :
    ((BeforeExecute env k ctx dev).status = RC_SUCCESS ∧
      newEvents dev (BeforeExecute env k ctx dev).dev
        = [Event.Reshape RC_SUCCESS, Event.SetDevice 0,
           Event.Realloc (concat_shape env k t1) RC_SUCCESS
             (env.Realloc (dev.trace.length + 2) (concat_shape env k t1)).2,
           Event.SetBuffer 0 (env.Realloc (dev.trace.length + 2) (concat_shape env k t1)).2,
           Event.SetDevice 1,
           Event.SetBuffer 1 (env.Realloc (dev.trace.length + 2) (concat_shape env k t1)).2] ∧
      (newEvents dev (BeforeExecute env k ctx dev).dev).countP isRealloc = 1 ∧
      (BeforeExecute env k ctx dev).dev.edge2buffer
        = dev.edge2buffer ++ [(g, (env.Realloc (dev.trace.length + 2) (concat_shape env k t1)).2)] ∧
      entries (BeforeExecute env k ctx dev).dev.edge2buffer g = 1 ∧
      find (BeforeExecute env k ctx dev).dev.edge2buffer g
        = some (env.Realloc (dev.trace.length + 2) (concat_shape env k t1)).2 ∧
      (BeforeExecute env k ctx dev).ctx.outputs.map TensorImpl.buffer
        = [(env.Realloc (dev.trace.length + 2) (concat_shape env k t1)).2,
           (env.Realloc (dev.trace.length + 2) (concat_shape env k t1)).2] ∧
      (BeforeExecute env k ctx dev).ctx.outputs.map TensorImpl.shape = [t1.shape, t2.shape]) ∧
    ((BeforeExecute env kA ctxA dev).status = RC_SUCCESS ∧
      (BeforeExecute env kB ctxB (BeforeExecute env kA ctxA dev).dev).status = RC_SUCCESS ∧
      newEvents dev (BeforeExecute env kB ctxB (BeforeExecute env kA ctxA dev).dev).dev
        = [Event.Reshape RC_SUCCESS, Event.SetDevice 0,
           Event.Realloc (concat_shape env kA t1) RC_SUCCESS
             (env.Realloc (dev.trace.length + 2) (concat_shape env kA t1)).2,
           Event.SetBuffer 0 (env.Realloc (dev.trace.length + 2) (concat_shape env kA t1)).2,
           Event.Reshape RC_SUCCESS, Event.SetDevice 0,
           Event.SetBuffer 0 (env.Realloc (dev.trace.length + 2) (concat_shape env kA t1)).2] ∧
      (newEvents dev
        (BeforeExecute env kB ctxB (BeforeExecute env kA ctxA dev).dev).dev).countP isRealloc = 1 ∧
      (BeforeExecute env kB ctxB (BeforeExecute env kA ctxA dev).dev).dev.edge2buffer
        = dev.edge2buffer
          ++ [(g, (env.Realloc (dev.trace.length + 2) (concat_shape env kA t1)).2)] ∧
      entries (BeforeExecute env kB ctxB (BeforeExecute env kA ctxA dev).dev).dev.edge2buffer g
        = 1 ∧
      find (BeforeExecute env kB ctxB (BeforeExecute env kA ctxA dev).dev).dev.edge2buffer g
        = some (env.Realloc (dev.trace.length + 2) (concat_shape env kA t1)).2 ∧
      (BeforeExecute env kA ctxA dev).ctx.outputs.map TensorImpl.buffer
        = [(env.Realloc (dev.trace.length + 2) (concat_shape env kA t1)).2] ∧
      (BeforeExecute env kB ctxB (BeforeExecute env kA ctxA dev).dev).ctx.outputs.map
          TensorImpl.buffer
        = [(env.Realloc (dev.trace.length + 2) (concat_shape env kA t1)).2] ∧
      (BeforeExecute env kA ctxA dev).ctx.outputs.map TensorImpl.shape = [t1.shape] ∧
      (BeforeExecute env kB ctxB (BeforeExecute env kA ctxA dev).dev).ctx.outputs.map
          TensorImpl.shape
        = [t2.shape]) := by
  -- what `Reshape` and `Realloc` answer
  have reshape : ∀ (n : Nat) (cx : KernelExecContext) (outs : List TensorImpl),
      (∀ m, (env.Reshape m cx).2.outputs = outs) →
      ∃ c, env.Reshape n cx = (RC_SUCCESS, c) ∧ c.outputs = outs := by
    intro n cx outs ho
    refine ⟨(env.Reshape n cx).2, ?_, ho n⟩
    rw [← hR n cx]
  have realloc : ∀ (n : Nat) (s : TensorShape),
      env.Realloc n s = (RC_SUCCESS, (env.Realloc n s).2) := by
    intro n s
    rw [← hA n s]
  have hmap : ∀ b, find (dev.edge2buffer ++ [(g, b)]) g = some b ∧
      entries (dev.edge2buffer ++ [(g, b)]) g = 1 := by
    intro b
    have h := emplace_of_find_none dev.edge2buffer g b hnone
    rw [h.1] at h
    exact ⟨h.2.1, h.2.2⟩
  constructor
  · obtain ⟨hg, hco⟩ := hk
    obtain ⟨c, hr, hout⟩ := reshape dev.trace.length ctx [t1, t2] hctx
    generalize hb : (env.Realloc (dev.trace.length + 2) (concat_shape env k t1)).2 = b
    have ha := realloc (dev.trace.length + 2) (concat_shape env k t1)
    rw [hb] at ha
    have e := BeforeExecute_first_member env k ctx c dev t1 [t2] b hr hout hco
      (by rw [hg]; exact hnone) ha
    rw [bindOutputs_found_one env k 1 t2 _ b hco (by rw [hg]; exact (hmap b).1)] at e
    rw [e, hg]
    refine ⟨rfl, ?_, ?_, rfl, (hmap b).2, (hmap b).1, ?_, ?_⟩
    · simp [newEvents]
    · simp [newEvents, isRealloc]
    · simp [TensorImpl.SetBuffer]
    · simp [TensorImpl.SetBuffer]
  · obtain ⟨hgA, hcoA⟩ := hkA
    obtain ⟨hgB, hcoB⟩ := hkB
    obtain ⟨cA, hrA, houtA⟩ := reshape dev.trace.length ctxA [t1] hctxA
    generalize hb : (env.Realloc (dev.trace.length + 2) (concat_shape env kA t1)).2 = b
    have ha := realloc (dev.trace.length + 2) (concat_shape env kA t1)
    rw [hb] at ha
    have eA := BeforeExecute_first_member env kA ctxA cA dev t1 [] b hrA houtA hcoA
      (by rw [hgA]; exact hnone) ha
    simp only [bindOutputs] at eA
    rw [hgA] at eA
    obtain ⟨cB, hrB, houtB⟩ := reshape (BeforeExecute env kA ctxA dev).dev.trace.length
      ctxB [t2] hctxB
    have hfB : find (BeforeExecute env kA ctxA dev).dev.edge2buffer
        kB.param_.extra_param.fuse_info.concat_edge_id = some b := by
      rw [eA, hgB]; exact (hmap b).1
    have eB := BeforeExecute_later_member_one env kB ctxB cB (BeforeExecute env kA ctxA dev).dev
      t2 b hrB houtB hcoB hfB
    rw [eB, eA]
    refine ⟨rfl, rfl, ?_, ?_, rfl, (hmap b).2, (hmap b).1, ?_, ?_, ?_, ?_⟩
    · simp [newEvents]
    · simp [newEvents, isRealloc]
    · simp [TensorImpl.SetBuffer]
    · simp [TensorImpl.SetBuffer]
    · simp [TensorImpl.SetBuffer]
    · simp [TensorImpl.SetBuffer]

/-- Witness of C1: fusion group 7 with declared total channel size 64 on an
empty device whose `Realloc` returns the buffer at address 300; one kernel
with two outputs, and two kernels at channel offsets 0 and 32 with one output
each.  Both outputs end with the buffer at 300, which is the one entry of the
map, after a single `Realloc`. -/
theorem BeforeExecute_group_allocated_once_witness :
    ((newEvents devEmpty (BeforeExecute envOk kFusedA ctxTwoOutputs devEmpty).dev).countP
        isRealloc = 1 ∧
      (BeforeExecute envOk kFusedA ctxTwoOutputs devEmpty).dev.edge2buffer = [(7, ⟨300⟩)] ∧
      (BeforeExecute envOk kFusedA ctxTwoOutputs devEmpty).ctx.outputs.map TensorImpl.buffer
        = [⟨300⟩, ⟨300⟩]) ∧
    ((newEvents devEmpty
        (BeforeExecute envOk kFusedB ctxConv
          (BeforeExecute envOk kFusedA ctxConv devEmpty).dev).dev).countP isRealloc = 1 ∧
      (BeforeExecute envOk kFusedB ctxConv
        (BeforeExecute envOk kFusedA ctxConv devEmpty).dev).dev.edge2buffer = [(7, ⟨300⟩)] ∧
      (BeforeExecute envOk kFusedA ctxConv devEmpty).ctx.outputs.map TensorImpl.buffer
        = [⟨300⟩] ∧
      (BeforeExecute envOk kFusedB ctxConv
        (BeforeExecute envOk kFusedA ctxConv devEmpty).dev).ctx.outputs.map TensorImpl.buffer
        = [⟨300⟩]) :=
  have h := BeforeExecute_group_allocated_once envOk 7 devEmpty kFusedA kFusedA kFusedB
    ctxTwoOutputs ctxConv ctxConv ⟨shape4 1 32 32 32, ⟨0⟩⟩ ⟨shape4 1 32 32 32, ⟨0⟩⟩
    (fun _ _ => rfl) (fun _ _ => rfl) (by decide) (by decide) (by decide) (by decide)
    (fun _ => rfl) (fun _ => rfl) (fun _ => rfl)
  ⟨⟨h.1.2.2.1, h.1.2.2.2.1, h.1.2.2.2.2.2.2.1⟩,
   ⟨h.2.2.2.2.1, h.2.2.2.2.2.1, h.2.2.2.2.2.2.2.2.1, h.2.2.2.2.2.2.2.2.2.1⟩⟩

end ppl.nn.cuda
